import Mathlib

/-!
# Reolink chime controller: embedding of `src/main.cpp`

The sketch has two entry points, `setup()` and `loop()`.  `setup()` reads one
32-bit word from EEPROM; `loop()` is one tick of the controller and keeps its
state in function-local statics.  Both are embedded here as pure functions on
an explicit state.

* `unsigned long` is 32 bits wide on the target; values are `Nat`, the clock
  reading is reduced modulo `2^32` when it is stored, and the subtraction
  `time-prev_time` is taken modulo `2^32`.
* `int` is a 32-bit two's-complement integer; values are `Int`, and `++` / `--`
  wrap at the ends of the range.
* The receiver library is a black box: a tick either has no decoded value, or
  it has one together with the reading of `millis()` taken in that tick.
* Output pins are part of the state; every `digitalWrite` of a tick is also
  recorded, in program order.
-/

namespace ReolinkChime

/-! ## Constants (lines 10-32, 42-43) -/

/-- Logic level of a digital pin. -/
inductive Level where
  | LOW
  | HIGH
deriving DecidableEq, Repr

/-- The two output pins the loop writes. -/
inductive Pin where
  | PIN_RELAY
  | PIN_LED
deriving DecidableEq, Repr

def CHIME_ON_TIME : Int := 600

def CHIME_OFF_TIME : Int := 1500

def CHIME_REPEAT : Int := 2

def LOOP_DELAY : Int := 10

def LED_FLASH_TIME : Int := 4000

def LED_ON : Level := Level.LOW

def LED_OFF : Level := Level.HIGH

def RELAY_ON : Level := Level.HIGH

def RELAY_OFF : Level := Level.LOW

def nrOfvalidCodes : Int := 5

/-- Width of `unsigned long` on the target: values live in `[0, 2^32)`. -/
def ULONG_MOD : Nat := 4294967296

/-! ## Machine arithmetic -/

/-- Subtraction of two `unsigned long` values, as in `time-prev_time`. -/
def usub32 (a b : Nat) : Nat :=
  (a % ULONG_MOD + ULONG_MOD - b % ULONG_MOD) % ULONG_MOD

/-- Post-increment of an `int` (`cnt++`), wrapping at `INT_MAX`. -/
def incr32 (c : Int) : Int :=
  if c = 2147483647 then -2147483648 else c + 1

/-- Post-decrement of an `int` (`chime_on_count--`), wrapping at `INT_MIN`. -/
def decr32 (c : Int) : Int :=
  if c = -2147483648 then 2147483647 else c - 1

/-! ## `setup()` (lines 57-115) -/

/-- The two globals `setup()` leaves behind for `loop()`. -/
structure Globals where
  doorbellCode : Nat
  learn_mode : Bool
deriving DecidableEq, Repr

/-- Lines 88-104: `EEPROM.get(0, doorbellCode)` yields the stored word; the
top byte is compared with `0x5A`, then the code is masked to 24 bits.
`learn_mode` starts out `false` (line 51). -/
def setup (eepromWord : Nat) : Globals :=
  let doorbellCode := eepromWord % ULONG_MOD
  let learn_mode := if ((doorbellCode &&& 0xFF000000) >>> 24) ≠ 0x0000005A then true else false
  { doorbellCode := doorbellCode &&& 0x00FFFFFF, learn_mode := learn_mode }

/-! ## `loop()` (lines 122-230) -/

/-- The statics of `loop()` together with the two output pins. -/
structure LoopState where
  time : Nat
  prev_time : Nat
  cnt : Int
  chime_repeat : Int
  chime_on_count : Int
  chime_off_count : Int
  led_flash_count : Int
  pin_relay : Level
  pin_led : Level
deriving DecidableEq, Repr

/-- State when `loop()` runs for the first time: the static initialisers of
lines 125-134 and the pin levels written by `setup()` (lines 75, 79). -/
def powerOn : LoopState :=
  { time := 0, prev_time := 0, cnt := 0,
    chime_repeat := 0, chime_on_count := 0, chime_off_count := 0,
    led_flash_count := LED_FLASH_TIME / LOOP_DELAY,
    pin_relay := RELAY_OFF, pin_led := LED_OFF }

/-- What the receiver and the clock hand to a tick in which
`recv433.available()` is true: the `unsigned long` returned by
`getReceivedValue()` and the reading of `millis()`. -/
structure Signal where
  value : Nat
  millis : Nat
deriving DecidableEq, Repr

/-- State plus the pin writes performed so far in the current tick. -/
structure Out where
  state : LoopState
  writes : List (Pin × Level)
deriving DecidableEq, Repr

/-- One call of `digitalWrite(pin, level)`. -/
def digitalWrite (pin : Pin) (level : Level) (o : Out) : Out :=
  match pin with
  | Pin.PIN_RELAY =>
    { state := { o.state with pin_relay := level }, writes := o.writes ++ [(pin, level)] }
  | Pin.PIN_LED =>
    { state := { o.state with pin_led := level }, writes := o.writes ++ [(pin, level)] }

/-- Lines 137-161: the receive block.  Returns the new state and the value of
the local `chime_trigger`, which starts every tick as `false` (line 129). -/
def receive (doorbellCode : Nat) (s : LoopState) (inp : Option Signal) : LoopState × Bool :=
  match inp with
  | none => (s, false)
  | some sig =>
    let recv := sig.value
    let s1 := { s with time := sig.millis % ULONG_MOD }
    let r : LoopState × Bool :=
      if recv = doorbellCode then
        let s2 :=
          if usub32 s1.time s1.prev_time > 1000 then { s1 with cnt := 0 }
          else { s1 with cnt := incr32 s1.cnt }
        (s2, decide (s2.cnt = nrOfvalidCodes))
      else (s1, false)
    ({ r.1 with prev_time := r.1.time }, r.2)

/-- Lines 166-173: a trigger loads the chime counters. -/
def arm (s : LoopState) (chime_trigger : Bool) : LoopState :=
  if chime_trigger then
    { s with chime_repeat := CHIME_REPEAT,
             chime_on_count := CHIME_ON_TIME / LOOP_DELAY,
             chime_off_count := 0 }
  else s

/-- Lines 178-188: the `if (chime_on_count)` block. -/
def chimeOn (o : Out) : Out :=
  if o.state.chime_on_count ≠ 0 then
    let o1 : Out := { o with state := { o.state with chime_on_count := decr32 o.state.chime_on_count } }
    let o2 := digitalWrite Pin.PIN_RELAY RELAY_ON o1
    let o3 := digitalWrite Pin.PIN_LED LED_ON o2
    if o3.state.chime_on_count = 0 then
      { o3 with state := { o3.state with chime_off_count := CHIME_OFF_TIME / LOOP_DELAY } }
    else o3
  else o

/-- Lines 190-201: the `if (chime_off_count)` block. -/
def chimeOff (o : Out) : Out :=
  if o.state.chime_off_count ≠ 0 then
    let o1 : Out := { o with state := { o.state with chime_off_count := decr32 o.state.chime_off_count } }
    let o2 := digitalWrite Pin.PIN_RELAY RELAY_OFF o1
    let o3 := digitalWrite Pin.PIN_LED LED_OFF o2
    if o3.state.chime_off_count = 0 then
      { o3 with state := { o3.state with chime_on_count := CHIME_ON_TIME / LOOP_DELAY,
                                         chime_repeat := decr32 o3.state.chime_repeat } }
    else o3
  else o

/-- Lines 177-205: the branch taken when `chime_repeat` is non-zero. -/
def chimeBranch (o : Out) : Out :=
  let o1 := chimeOn o
  let o2 := chimeOff o1
  { o2 with state := { o2.state with led_flash_count := LED_FLASH_TIME / LOOP_DELAY } }

/-- Lines 209-226: the branch taken when the chime is not ringing. -/
def flashBranch (o : Out) : Out :=
  let o1 := if o.state.led_flash_count = 1 then digitalWrite Pin.PIN_LED LED_ON o else o
  if o1.state.led_flash_count = 0 then
    let o2 := digitalWrite Pin.PIN_LED LED_OFF o1
    { o2 with state := { o2.state with led_flash_count := LED_FLASH_TIME / LOOP_DELAY } }
  else
    { o1 with state := { o1.state with led_flash_count := decr32 o1.state.led_flash_count } }

/-- Lines 176-226: arbitration between the chime and the idle LED flash. -/
def drive (s : LoopState) : Out :=
  if s.chime_repeat ≠ 0 then chimeBranch { state := s, writes := [] }
  else flashBranch { state := s, writes := [] }

/-- Observable result of one tick. -/
structure Tick where
  state : LoopState
  chime_trigger : Bool
  writes : List (Pin × Level)
deriving DecidableEq, Repr

/-- One call of `loop()`. -/
def loop (doorbellCode : Nat) (s : LoopState) (inp : Option Signal) : Tick :=
  let r := receive doorbellCode s inp
  let o := drive (arm r.1 r.2)
  { state := o.state, chime_trigger := r.2, writes := o.writes }

/-- Successive calls of `loop()`, one per input; the results in order. -/
def run (doorbellCode : Nat) : LoopState → List (Option Signal) → List Tick
  | _, [] => []
  | s, inp :: rest =>
    let t := loop doorbellCode s inp
    t :: run doorbellCode t.state rest

/-- State after successive calls of `loop()`. -/
def runState (doorbellCode : Nat) : LoopState → List (Option Signal) → LoopState
  | s, [] => s
  | s, inp :: rest => runState doorbellCode (loop doorbellCode s inp).state rest

/-- The signals of a tick sequence that carry the value `code`. -/
def arrivalsOf (code : Nat) (inps : List (Option Signal)) : List Signal :=
  (inps.filterMap id).filter (fun sig => decide (sig.value = code))

/-! ## Predicates used in the statements -/

/-- The sequencer is idle: `if (chime_repeat)` fails. -/
def isIdle (s : LoopState) : Prop := s.chime_repeat = 0

/-- The sequencer is in its ON phase. -/
def isRingingOn (s : LoopState) : Prop :=
  0 < s.chime_repeat ∧ 0 < s.chime_on_count ∧ s.chime_off_count = 0

/-- The sequencer is in its OFF phase. -/
def isRingingOff (s : LoopState) : Prop :=
  0 < s.chime_repeat ∧ s.chime_on_count = 0 ∧ 0 < s.chime_off_count

/-- Shape of the three chime counters at the end of a tick. -/
def chimeShape (s : LoopState) : Prop :=
  (s.chime_repeat = 0 ∧ s.chime_off_count = 0 ∧
      (s.chime_on_count = 0 ∨ s.chime_on_count = 60)) ∨
    ((s.chime_repeat = 1 ∨ s.chime_repeat = 2) ∧
      ((1 ≤ s.chime_on_count ∧ s.chime_on_count ≤ 60 ∧ s.chime_off_count = 0) ∨
        (s.chime_on_count = 0 ∧ 1 ≤ s.chime_off_count ∧ s.chime_off_count ≤ 149)))

/-- Invariant of the states at the end of a tick: the shape of the chime
counters, the relay only ON in the ON phase, and the LED determined by the
relay and the heartbeat counter. -/
def TickInv (s : LoopState) : Prop :=
  chimeShape s ∧
    (s.pin_relay = RELAY_ON →
      s.chime_repeat ≠ 0 ∧ 1 ≤ s.chime_on_count ∧ s.chime_off_count = 0) ∧
    (s.pin_led = LED_ON ↔
      (s.pin_relay = RELAY_ON ∨ (s.chime_repeat = 0 ∧ s.led_flash_count = 0)))

instance (s : LoopState) : Decidable (isIdle s) := by
  unfold isIdle
  infer_instance

instance (s : LoopState) : Decidable (isRingingOn s) := by
  unfold isRingingOn
  infer_instance

instance (s : LoopState) : Decidable (isRingingOff s) := by
  unfold isRingingOff
  infer_instance

instance (s : LoopState) : Decidable (chimeShape s) := by
  unfold chimeShape
  infer_instance

instance (s : LoopState) : Decidable (TickInv s) := by
  unfold TickInv
  infer_instance

/-- Number of ticks without a trigger after which the sequencer is idle. -/
def ticksLeft (s : LoopState) : Int :=
  if s.chime_repeat = 0 then 0
  else if s.chime_off_count = 0 then s.chime_on_count + 149 + (s.chime_repeat - 1) * 209
  else s.chime_off_count + (s.chime_repeat - 1) * 209

/-- Every signal of the tick sequence comes at most 1000 ms (32-bit unsigned
difference of the `millis()` readings) after the signal before it; `prev` is
the reading of the last signal so far. -/
def withinWindow (prev : Nat) : List (Option Signal) → Bool
  | [] => true
  | none :: rest => withinWindow prev rest
  | some sig :: rest => decide (usub32 sig.millis prev ≤ 1000) && withinWindow sig.millis rest

/-- An unbroken run: no gap of more than 1000 ms between consecutive signals;
nothing is asked of the first signal. -/
def unbrokenRun : List (Option Signal) → Bool
  | [] => true
  | none :: rest => unbrokenRun rest
  | some sig :: rest => withinWindow sig.millis rest

/-- A run of `n` ticks, each with an arrival of `code`, the readings of
`millis()` being `t + step`, `t + 2 * step`, ... -/
def steadyArrivals (code step : Nat) : Nat → Nat → List (Option Signal)
  | _, 0 => []
  | t, n + 1 => some ⟨code, t + step⟩ :: steadyArrivals code step (t + step) n

/-- Number of ticks of a run that raise `chime_trigger`. -/
def triggerCount (ticks : List Tick) : Nat :=
  (ticks.filter (fun t => t.chime_trigger)).length

/-! ## Frame lemmas for one tick -/

theorem receive_none (E : Nat) (s : LoopState) : receive E s none = (s, false) := rfl

theorem receive_other (E : Nat) (s : LoopState) (sig : Signal) (h : sig.value ≠ E) :
    receive E s (some sig) =
      ({ s with time := sig.millis % ULONG_MOD, prev_time := sig.millis % ULONG_MOD }, false) := by
  simp [receive, h]

theorem receive_match_cnt (E : Nat) (s : LoopState) (sig : Signal) (h : sig.value = E) :
    (receive E s (some sig)).1.cnt =
      (if usub32 (sig.millis % ULONG_MOD) s.prev_time > 1000 then 0 else incr32 s.cnt) := by
  simp only [receive, h, if_true]
  split <;> rfl

theorem receive_trigger_iff (E : Nat) (s : LoopState) (inp : Option Signal) :
    (receive E s inp).2 = true ↔
      ∃ sig, inp = some sig ∧ sig.value = E ∧ (receive E s inp).1.cnt = nrOfvalidCodes := by
  cases inp with
  | none => simp [receive]
  | some sig =>
    by_cases h : sig.value = E
    · subst h
      simp only [receive, if_true]
      split <;> simp
    · simp [receive, h]

theorem receive_prev_time (E : Nat) (s : LoopState) (sig : Signal) :
    (receive E s (some sig)).1.prev_time = sig.millis % ULONG_MOD := by
  simp only [receive]
  split
  · split <;> rfl
  · rfl

theorem arm_cnt (s : LoopState) (b : Bool) : (arm s b).cnt = s.cnt := by
  cases b <;> rfl

theorem arm_prev_time (s : LoopState) (b : Bool) : (arm s b).prev_time = s.prev_time := by
  cases b <;> rfl

theorem arm_false (s : LoopState) : arm s false = s := rfl

theorem drive_cnt (s : LoopState) : (drive s).state.cnt = s.cnt := by
  simp only [drive, chimeBranch, chimeOn, chimeOff, flashBranch, digitalWrite]
  split_ifs <;> rfl

theorem drive_prev_time (s : LoopState) : (drive s).state.prev_time = s.prev_time := by
  simp only [drive, chimeBranch, chimeOn, chimeOff, flashBranch, digitalWrite]
  split_ifs <;> rfl

theorem loop_cnt (E : Nat) (s : LoopState) (inp : Option Signal) :
    (loop E s inp).state.cnt = (receive E s inp).1.cnt := by
  simp [loop, drive_cnt, arm_cnt]

theorem loop_prev_time (E : Nat) (s : LoopState) (inp : Option Signal) :
    (loop E s inp).state.prev_time = (receive E s inp).1.prev_time := by
  simp [loop, drive_prev_time, arm_prev_time]

theorem loop_trigger (E : Nat) (s : LoopState) (inp : Option Signal) :
    (loop E s inp).chime_trigger = (receive E s inp).2 := rfl

theorem receive_chime_repeat (E : Nat) (s : LoopState) (inp : Option Signal) :
    (receive E s inp).1.chime_repeat = s.chime_repeat ∧
      (receive E s inp).1.pin_relay = s.pin_relay := by
  cases inp with
  | none => exact ⟨rfl, rfl⟩
  | some sig =>
    simp only [receive]
    split
    · split <;> exact ⟨rfl, rfl⟩
    · exact ⟨rfl, rfl⟩

theorem drive_idle (s : LoopState) (h : s.chime_repeat = 0) :
    (drive s).state.chime_repeat = 0 ∧ (drive s).state.pin_relay = s.pin_relay ∧
      (Pin.PIN_RELAY, RELAY_ON) ∉ (drive s).writes := by
  have hd : drive s = flashBranch { state := s, writes := [] } := by
    simp [drive, h]
  rw [hd]
  simp only [flashBranch, digitalWrite]
  split_ifs <;> simp [h, RELAY_ON]

theorem loop_idle (E : Nat) (s : LoopState) (inp : Option Signal)
    (hq : (loop E s inp).chime_trigger = false) (h : s.chime_repeat = 0) :
    (loop E s inp).state.chime_repeat = 0 ∧ (loop E s inp).state.pin_relay = s.pin_relay ∧
      (Pin.PIN_RELAY, RELAY_ON) ∉ (loop E s inp).writes := by
  rw [loop_trigger] at hq
  have hr := receive_chime_repeat E s inp
  have hd := drive_idle (receive E s inp).1 (by rw [hr.1, h])
  simp only [loop, hq, arm_false]
  exact ⟨hd.1, by rw [hd.2.1, hr.2], hd.2.2⟩

/-! ## Runs of ticks -/

theorem loop_quiet (E : Nat) (s : LoopState) (inp : Option Signal)
    (h : ∀ sig, inp = some sig → sig.value ≠ E) : (loop E s inp).chime_trigger = false := by
  rw [loop_trigger]
  cases hb : (receive E s inp).2 with
  | false => rfl
  | true =>
    obtain ⟨sig, hi, hv, _⟩ := (receive_trigger_iff E s inp).1 hb
    exact absurd hv (h sig hi)

theorem run_quiet (E : Nat) (inps : List (Option Signal)) :
    ∀ s : LoopState, (∀ sig ∈ inps.filterMap id, sig.value ≠ E) →
      ∀ t ∈ run E s inps, t.chime_trigger = false := by
  induction inps with
  | nil => intro s _ t ht; simp [run] at ht
  | cons inp rest ih =>
    intro s h t ht
    simp only [run, List.mem_cons] at ht
    rcases ht with rfl | ht
    · apply loop_quiet
      intro sig hs
      exact h sig (by simp [hs])
    · refine ih _ ?_ t ht
      intro sig hs
      apply h sig
      cases inp with
      | none => simpa using hs
      | some x => simp only [List.filterMap_cons, id]; exact List.mem_cons_of_mem _ hs

theorem run_idle (E : Nat) (inps : List (Option Signal)) :
    ∀ s : LoopState, (∀ t ∈ run E s inps, t.chime_trigger = false) → s.chime_repeat = 0 →
      ∀ t ∈ run E s inps, t.state.chime_repeat = 0 ∧ t.state.pin_relay = s.pin_relay ∧
        (Pin.PIN_RELAY, RELAY_ON) ∉ t.writes := by
  induction inps with
  | nil => intro s _ _ t ht; simp [run] at ht
  | cons inp rest ih =>
    intro s hq h0 t ht
    have hfirst := loop_idle E s inp (hq _ (by simp [run])) h0
    simp only [run, List.mem_cons] at ht
    rcases ht with rfl | ht
    · exact hfirst
    · have hrest := ih (loop E s inp).state
        (fun u hu => hq u (by simp only [run, List.mem_cons]; exact Or.inr hu)) hfirst.1 t ht
      exact ⟨hrest.1, by rw [hrest.2.1, hfirst.2.1], hrest.2.2⟩

theorem incr32_le (c : Int) : incr32 c ≤ c + 1 := by
  unfold incr32
  split_ifs <;> omega

theorem receive_cnt_le (E : Nat) (s : LoopState) (inp : Option Signal) (k : Int)
    (hk : 0 ≤ k) (hc : s.cnt ≤ k) :
    (receive E s inp).1.cnt ≤ k + (arrivalsOf E [inp]).length := by
  cases inp with
  | none => simpa [receive, arrivalsOf] using hc
  | some sig =>
    by_cases h : sig.value = E
    · rw [receive_match_cnt E s sig h]
      have hi := incr32_le s.cnt
      simp only [arrivalsOf, List.filterMap_cons, id, List.filterMap_nil, List.filter_cons, h,
        decide_True, if_true, List.filter_nil, List.length_singleton]
      split_ifs <;> push_cast <;> omega
    · rw [receive_other E s sig h]
      simpa [arrivalsOf, h] using hc

theorem arrivalsOf_cons (E : Nat) (inp : Option Signal) (rest : List (Option Signal)) :
    (arrivalsOf E (inp :: rest)).length = (arrivalsOf E [inp]).length + (arrivalsOf E rest).length := by
  cases inp with
  | none => simp [arrivalsOf]
  | some sig =>
    by_cases h : sig.value = E
    · simp [arrivalsOf, h]
      omega
    · simp [arrivalsOf, h]

theorem run_few (E : Nat) (inps : List (Option Signal)) :
    ∀ (s : LoopState) (k : Int), 0 ≤ k → s.cnt ≤ k →
      k + (arrivalsOf E inps).length < nrOfvalidCodes →
      ∀ t ∈ run E s inps, t.chime_trigger = false := by
  induction inps with
  | nil => intro s k _ _ _ t ht; simp [run] at ht
  | cons inp rest ih =>
    intro s k hk hc hl t ht
    have hle := receive_cnt_le E s inp k hk hc
    rw [arrivalsOf_cons] at hl
    push_cast at hl
    simp only [run, List.mem_cons] at ht
    rcases ht with rfl | ht
    · rw [loop_trigger]
      cases hb : (receive E s inp).2 with
      | false => rfl
      | true =>
        obtain ⟨_, _, _, h5⟩ := (receive_trigger_iff E s inp).1 hb
        omega
    · refine ih (loop E s inp).state (k + (arrivalsOf E [inp]).length) (by omega) ?_ (by omega) t ht
      rw [loop_cnt]
      exact hle

/-! ## Bit-level facts used by `setup()` -/

theorem shiftRight_and (a b n : Nat) : (a &&& b) >>> n = (a >>> n) &&& (b >>> n) := by
  apply Nat.eq_of_testBit_eq
  intro i
  simp [Nat.testBit_shiftRight, Nat.testBit_and]

theorem top_byte (w : Nat) : (w &&& 0xFF000000) >>> 24 = (w / 2 ^ 24) % 256 := by
  rw [shiftRight_and]
  have h1 : (0xFF000000 : Nat) >>> 24 = 2 ^ 8 - 1 := by decide
  rw [h1, Nat.and_pow_two_sub_one_eq_mod, Nat.shiftRight_eq_div_pow]

theorem low_bytes (w : Nat) : w &&& 0x00FFFFFF = w % 2 ^ 24 := by
  have h1 : (0x00FFFFFF : Nat) = 2 ^ 24 - 1 := by decide
  rw [h1, Nat.and_pow_two_sub_one_eq_mod]

theorem setup_doorbellCode (w : Nat) (hw : w < 2 ^ 32) : (setup w).doorbellCode = w % 2 ^ 24 := by
  have hm : w % ULONG_MOD = w := Nat.mod_eq_of_lt (by simpa [ULONG_MOD] using hw)
  simp only [setup, hm, low_bytes]

theorem setup_learn_mode (w : Nat) (hw : w < 2 ^ 32) :
    (setup w).learn_mode = true ↔ w / 2 ^ 24 ≠ 0x5A := by
  have hm : w % ULONG_MOD = w := Nat.mod_eq_of_lt (by simpa [ULONG_MOD] using hw)
  have hb : (w / 2 ^ 24) % 256 = w / 2 ^ 24 := by
    apply Nat.mod_eq_of_lt
    omega
  simp only [setup, hm, top_byte, hb]
  split_ifs with h <;> simp_all

/-! ## Learn-mode (C1) -/

/-- C1, evaluated on the code: the stored word `0x00B65902` has top byte
`0x00`, so `setup()` reports the code as not valid and sets `learn_mode`, yet
`loop()` still compares with its low 24 bits: five arrivals of `0xB65902` at
100..500 ms raise `chime_trigger` on the fifth tick and leave the relay driven
ON. -/
theorem learn_mode_still_rings :
    (0x00B65902 : Nat) / 2 ^ 24 ≠ 0x5A ∧ (setup 0x00B65902).learn_mode = true ∧
    (run (setup 0x00B65902).doorbellCode powerOn
        [some ⟨0xB65902, 100⟩, some ⟨0xB65902, 200⟩, some ⟨0xB65902, 300⟩,
         some ⟨0xB65902, 400⟩, some ⟨0xB65902, 500⟩]).map
        (fun t => (t.chime_trigger, t.state.pin_relay)) =
      [(false, RELAY_OFF), (false, RELAY_OFF), (false, RELAY_OFF), (false, RELAY_OFF),
       (true, RELAY_ON)] := by
  decide

/-! ## Codes other than the expected one (C4) -/

/-- C4: for every expected code `E`, every code `C ≠ E`, every start state and
every sequence of ticks whose received values are all `C` (at any times, with
empty ticks in between), no tick raises `chime_trigger`; and when the
sequencer starts idle it stays idle and the relay is never written ON. -/
theorem other_code_never_triggers (E C : Nat) (hC : C ≠ E) (s : LoopState)
    (inps : List (Option Signal)) (h : ∀ sig ∈ inps.filterMap id, sig.value = C) :
    (∀ t ∈ run E s inps, t.chime_trigger = false) ∧
    (s.chime_repeat = 0 →
      ∀ t ∈ run E s inps, t.state.chime_repeat = 0 ∧ (Pin.PIN_RELAY, RELAY_ON) ∉ t.writes) := by
  have hq := run_quiet E inps s (fun sig hs => by rw [h sig hs]; exact hC)
  refine ⟨hq, fun h0 t ht => ?_⟩
  have hi := run_idle E inps s hq h0 t ht
  exact ⟨hi.1, hi.2.2⟩

theorem other_code_never_triggers_witness :
    (∀ t ∈ run 0xB65902 { powerOn with cnt := 4, prev_time := 90 }
        [some ⟨0xB65903, 100⟩, some ⟨0xB65903, 200⟩, none, some ⟨0xB65903, 5000⟩],
      t.chime_trigger = false) ∧
    (({ powerOn with cnt := 4, prev_time := 90 } : LoopState).chime_repeat = 0 →
      ∀ t ∈ run 0xB65902 { powerOn with cnt := 4, prev_time := 90 }
        [some ⟨0xB65903, 100⟩, some ⟨0xB65903, 200⟩, none, some ⟨0xB65903, 5000⟩],
        t.state.chime_repeat = 0 ∧ (Pin.PIN_RELAY, RELAY_ON) ∉ t.writes) :=
  other_code_never_triggers 0xB65902 0xB65903 (by decide) { powerOn with cnt := 4, prev_time := 90 }
    [some ⟨0xB65903, 100⟩, some ⟨0xB65903, 200⟩, none, some ⟨0xB65903, 5000⟩] (by decide)

/-! ## Startup load (C6) -/

/-- C6: for every 32-bit stored word `w`, `setup()` leaves
`doorbellCode = w mod 2^24` whether or not the word is valid, and sets
`learn_mode` exactly when the top 8 bits of `w` differ from `0x5A`; the word
`0x5AB65902` gives code `0xB65902` without learn-mode, the word `0` gives
learn-mode. -/
theorem setup_load (w : Nat) (hw : w < 2 ^ 32) :
    (setup w).doorbellCode = w % 2 ^ 24 ∧
    ((setup w).learn_mode = false ↔ w / 2 ^ 24 = 0x5A) ∧
    ((setup w).learn_mode = true ↔ w / 2 ^ 24 ≠ 0x5A) ∧
    setup 0x5AB65902 = { doorbellCode := 0xB65902, learn_mode := false } ∧
    (setup 0x00000000).learn_mode = true := by
  refine ⟨setup_doorbellCode w hw, ?_, setup_learn_mode w hw, by decide, by decide⟩
  have h := setup_learn_mode w hw
  cases hl : (setup w).learn_mode with
  | false =>
    rw [hl] at h
    simp only [Bool.false_eq_true, false_iff, ne_eq, not_not] at h
    simpa using h
  | true =>
    rw [hl] at h
    simp only [true_iff] at h
    simpa using h

theorem setup_load_witness :
    (setup 0x5A000001).doorbellCode = 0x5A000001 % 2 ^ 24 ∧
    ((setup 0x5A000001).learn_mode = false ↔ 0x5A000001 / 2 ^ 24 = 0x5A) ∧
    ((setup 0x5A000001).learn_mode = true ↔ 0x5A000001 / 2 ^ 24 ≠ 0x5A) ∧
    setup 0x5AB65902 = { doorbellCode := 0xB65902, learn_mode := false } ∧
    (setup 0x00000000).learn_mode = true :=
  setup_load 0x5A000001 (by decide)

/-! ## Fewer arrivals than the threshold (C8) -/

/-- C8: from the power-on state, for every sequence of ticks that contains at
most 4 arrivals of the expected code (at any times, with any other codes and
empty ticks interleaved), no tick raises `chime_trigger`. -/
theorem at_most_four_arrivals_never_trigger (E : Nat) (inps : List (Option Signal))
    (h : (arrivalsOf E inps).length ≤ 4) :
    ∀ t ∈ run E powerOn inps, t.chime_trigger = false := by
  refine run_few E inps powerOn 0 (le_refl 0) (le_of_eq rfl) ?_
  simp only [nrOfvalidCodes]
  omega

theorem at_most_four_arrivals_never_trigger_witness :
    (arrivalsOf 0xB65902
        [some ⟨0xB65902, 100⟩, some ⟨0xB65902, 200⟩, some ⟨0x1, 250⟩, none,
         some ⟨0xB65902, 300⟩, some ⟨0xB65902, 400⟩, some ⟨0x2, 450⟩]).length = 4 ∧
    ∀ t ∈ run 0xB65902 powerOn
        [some ⟨0xB65902, 100⟩, some ⟨0xB65902, 200⟩, some ⟨0x1, 250⟩, none,
         some ⟨0xB65902, 300⟩, some ⟨0xB65902, 400⟩, some ⟨0x2, 450⟩],
      t.chime_trigger = false :=
  ⟨by decide, at_most_four_arrivals_never_trigger 0xB65902
    [some ⟨0xB65902, 100⟩, some ⟨0xB65902, 200⟩, some ⟨0x1, 250⟩, none,
     some ⟨0xB65902, 300⟩, some ⟨0xB65902, 400⟩, some ⟨0x2, 450⟩] (by decide)⟩

/-! ## Five arrivals from power-on (C2) -/

theorem usub32_wrap (p d : Nat) (hd : d < ULONG_MOD) :
    usub32 ((p + d) % ULONG_MOD) (p % ULONG_MOD) = d := by
  unfold usub32
  unfold ULONG_MOD at *
  omega

theorem usub32_gap (t g : Nat) (h : t + g < ULONG_MOD) : usub32 ((t + g) % ULONG_MOD) t = g := by
  unfold usub32
  unfold ULONG_MOD at *
  omega

theorem receive_match_trigger (E : Nat) (s : LoopState) (sig : Signal) (h : sig.value = E) :
    (receive E s (some sig)).2 = decide ((receive E s (some sig)).1.cnt = nrOfvalidCodes) := by
  simp only [receive, h, if_true]

theorem loop_first_arrival (E t : Nat) (h : t < ULONG_MOD) :
    (loop E powerOn (some ⟨E, t⟩)).state.prev_time = t ∧
    (loop E powerOn (some ⟨E, t⟩)).state.cnt = (if t ≤ 1000 then 1 else 0) ∧
    (loop E powerOn (some ⟨E, t⟩)).chime_trigger = false := by
  have hu : usub32 (t % ULONG_MOD) powerOn.prev_time = t := by
    have := usub32_gap 0 t (by simpa using h)
    simpa [powerOn] using this
  have hc : (receive E powerOn (some ⟨E, t⟩)).1.cnt = (if t ≤ 1000 then 1 else 0) := by
    rw [receive_match_cnt E powerOn ⟨E, t⟩ rfl]
    simp only [hu]
    split_ifs <;> first | omega | rfl
  refine ⟨?_, ?_, ?_⟩
  · rw [loop_prev_time, receive_prev_time]
    exact Nat.mod_eq_of_lt h
  · rw [loop_cnt, hc]
  · rw [loop_trigger, receive_match_trigger E powerOn ⟨E, t⟩ rfl, hc]
    split_ifs <;> simp [nrOfvalidCodes]

theorem loop_next_arrival (E : Nat) (s : LoopState) (t g : Nat) (c : Int)
    (hp : s.prev_time = t) (hc : s.cnt = c) (ht : t + g < ULONG_MOD) (hg : g ≤ 1000)
    (hmax : c ≠ 2147483647) :
    (loop E s (some ⟨E, t + g⟩)).state.prev_time = t + g ∧
    (loop E s (some ⟨E, t + g⟩)).state.cnt = c + 1 ∧
    (loop E s (some ⟨E, t + g⟩)).chime_trigger = decide (c + 1 = nrOfvalidCodes) := by
  have hu : usub32 ((t + g) % ULONG_MOD) s.prev_time = g := by
    rw [hp]
    exact usub32_gap t g ht
  have hcnt : (receive E s (some ⟨E, t + g⟩)).1.cnt = c + 1 := by
    rw [receive_match_cnt E s ⟨E, t + g⟩ rfl]
    simp only [hu, hc, incr32]
    split_ifs <;> omega
  refine ⟨?_, ?_, ?_⟩
  · rw [loop_prev_time, receive_prev_time]
    exact Nat.mod_eq_of_lt ht
  · rw [loop_cnt, hcnt]
  · rw [loop_trigger, receive_match_trigger E s ⟨E, t + g⟩ rfl, hcnt]

/-- C2, evaluated on the code: from the power-on state, five arrivals of the
expected code on successive ticks, the first at time `t1` and every later gap
at most 1000 ms, raise no trigger on the first four, and raise one on the
fifth exactly when `t1 ≤ 1000`; with the first arrival more than one second
after boot the five arrivals raise no trigger at all. -/
theorem five_arrivals_trigger_only_if_first_within_window (E t1 g2 g3 g4 g5 : Nat)
    (hM : t1 + g2 + g3 + g4 + g5 < 2 ^ 32)
    (h2 : g2 ≤ 1000) (h3 : g3 ≤ 1000) (h4 : g4 ≤ 1000) (h5 : g5 ≤ 1000) :
    (run E powerOn
        [some ⟨E, t1⟩, some ⟨E, t1 + g2⟩, some ⟨E, t1 + g2 + g3⟩,
         some ⟨E, t1 + g2 + g3 + g4⟩, some ⟨E, t1 + g2 + g3 + g4 + g5⟩]).map
        (fun t => t.chime_trigger) =
      [false, false, false, false, decide (t1 ≤ 1000)] := by
  have hM1 : t1 + g2 + g3 + g4 + g5 < ULONG_MOD := by simpa [ULONG_MOD] using hM
  obtain ⟨p1, c1, q1⟩ := loop_first_arrival E t1 (by omega)
  by_cases hw : t1 ≤ 1000
  · rw [if_pos hw] at c1
    obtain ⟨p2, c2, q2⟩ := loop_next_arrival E _ t1 g2 1 p1 c1 (by omega) h2 (by decide)
    obtain ⟨p3, c3, q3⟩ := loop_next_arrival E _ (t1 + g2) g3 (1 + 1) p2 c2 (by omega) h3 (by decide)
    obtain ⟨p4, c4, q4⟩ :=
      loop_next_arrival E _ (t1 + g2 + g3) g4 (1 + 1 + 1) p3 c3 (by omega) h4 (by decide)
    obtain ⟨_, _, q5⟩ :=
      loop_next_arrival E _ (t1 + g2 + g3 + g4) g5 (1 + 1 + 1 + 1) p4 c4 (by omega) h5 (by decide)
    simp only [run, List.map_cons, List.map_nil, q1, q2, q3, q4, q5, hw, nrOfvalidCodes]
    decide
  · rw [if_neg hw] at c1
    obtain ⟨p2, c2, q2⟩ := loop_next_arrival E _ t1 g2 0 p1 c1 (by omega) h2 (by decide)
    obtain ⟨p3, c3, q3⟩ := loop_next_arrival E _ (t1 + g2) g3 (0 + 1) p2 c2 (by omega) h3 (by decide)
    obtain ⟨p4, c4, q4⟩ :=
      loop_next_arrival E _ (t1 + g2 + g3) g4 (0 + 1 + 1) p3 c3 (by omega) h4 (by decide)
    obtain ⟨_, _, q5⟩ :=
      loop_next_arrival E _ (t1 + g2 + g3 + g4) g5 (0 + 1 + 1 + 1) p4 c4 (by omega) h5 (by decide)
    simp only [run, List.map_cons, List.map_nil, q1, q2, q3, q4, q5, hw, nrOfvalidCodes]
    decide

theorem five_arrivals_trigger_only_if_first_within_window_witness :
    (run 0xB65902 powerOn
        [some ⟨0xB65902, 2000⟩, some ⟨0xB65902, 2000 + 100⟩, some ⟨0xB65902, 2000 + 100 + 100⟩,
         some ⟨0xB65902, 2000 + 100 + 100 + 100⟩,
         some ⟨0xB65902, 2000 + 100 + 100 + 100 + 100⟩]).map
        (fun t => t.chime_trigger) =
      [false, false, false, false, decide (2000 ≤ 1000)] :=
  five_arrivals_trigger_only_if_first_within_window 0xB65902 2000 100 100 100 100
    (by decide) (by decide) (by decide) (by decide) (by decide)

/-! ## The ring after a trigger (C3) -/

set_option maxRecDepth 1000000 in
/-- C3, evaluated on the code: from power-on, the fifth arrival (tick 5 of
the run) raises the trigger; the relay level at the end of successive ticks,
starting with the trigger tick, is ON for 59 ticks, OFF for 150, ON for 59,
OFF for 150 (418 ticks in all) and OFF afterwards.  The 60th tick of each ON
phase already ends with the relay OFF, because the OFF block of lines 190-201
runs in the same call in which `chime_on_count` reaches zero.  At the end of
the 418th tick `chime_repeat` is 0. -/
theorem ring_relay_trace :
    (run 0xB65902 powerOn
        ([some ⟨0xB65902, 100⟩, some ⟨0xB65902, 200⟩, some ⟨0xB65902, 300⟩,
          some ⟨0xB65902, 400⟩, some ⟨0xB65902, 500⟩] ++ List.replicate 419 none)).map
        (fun t => (t.chime_trigger, t.state.pin_relay)) =
      List.replicate 4 (false, RELAY_OFF) ++ [(true, RELAY_ON)] ++
        List.replicate 58 (false, RELAY_ON) ++ List.replicate 150 (false, RELAY_OFF) ++
        List.replicate 59 (false, RELAY_ON) ++ List.replicate 150 (false, RELAY_OFF) ++
        List.replicate 2 (false, RELAY_OFF) ∧
    (runState 0xB65902 powerOn
        ([some ⟨0xB65902, 100⟩, some ⟨0xB65902, 200⟩, some ⟨0xB65902, 300⟩,
          some ⟨0xB65902, 400⟩, some ⟨0xB65902, 500⟩] ++ List.replicate 417 none)).chime_repeat
      = 0 := by
  decide

/-! ## A gap in the arrivals (C5) -/

/-- C5, as stated, fails: the expected code arrives at 100, 200, 300 and
400 ms, another code at 1300 ms, and the expected code again at 1500 ms, which
is 1100 ms after its previous arrival; the count is not reset there but goes
from 4 to 5, and the trigger is raised. -/
theorem gap_between_matches_counterexample :
    (run 0xB65902 powerOn
        [some ⟨0xB65902, 100⟩, some ⟨0xB65902, 200⟩, some ⟨0xB65902, 300⟩,
         some ⟨0xB65902, 400⟩, some ⟨0x123456, 1300⟩, some ⟨0xB65902, 1500⟩]).map
        (fun t => (t.chime_trigger, t.state.cnt)) =
      [(false, 1), (false, 2), (false, 3), (false, 4), (false, 4), (true, 5)] := by
  decide

theorem usub32_mod (a b : Nat) : usub32 (a % ULONG_MOD) (b % ULONG_MOD) = usub32 a b := by
  simp [usub32, Nat.mod_mod]

theorem runState_idle_ticks (E : Nat) (n : Nat) :
    ∀ s : LoopState, (runState E s (List.replicate n none)).prev_time = s.prev_time := by
  induction n with
  | zero => intro s; rfl
  | succ k ih =>
    intro s
    simp only [List.replicate_succ, runState]
    rw [ih, loop_prev_time, receive_none]

theorem runState_prev_signal (E : Nat) (s : LoopState) (prev : Signal) (n : Nat) :
    (runState E s (some prev :: List.replicate n none)).prev_time = prev.millis % ULONG_MOD := by
  simp only [runState]
  rw [runState_idle_ticks, loop_prev_time, receive_prev_time]

theorem loop_after_gap (E : Nat) (s : LoopState) (sig : Signal) (c : Int)
    (hv : sig.value = E) (hgap : usub32 (sig.millis % ULONG_MOD) s.prev_time > 1000) :
    (loop E s (some sig)).chime_trigger = false ∧ (loop E s (some sig)).state.cnt = 0 ∧
      loop E { s with cnt := c } (some sig) = loop E s (some sig) := by
  have hc : (receive E s (some sig)).1.cnt = 0 := by
    rw [receive_match_cnt E s sig hv, if_pos hgap]
  refine ⟨?_, ?_, ?_⟩
  · rw [loop_trigger, receive_match_trigger E s sig hv, hc]
    rfl
  · rw [loop_cnt, hc]
  · simp only [loop, receive, hv, if_true, hgap]

/-- C5, amended: in every sequence of received signals, when an arrival of
the expected code comes `d` ms after the previous received signal, with
`1000 < d < 2^32` (the range of the 32-bit millisecond counter, so that the
difference of the two `millis()` readings is `d`), whatever code that signal
carried, whether or not `millis()` wrapped in between and however many empty
ticks lie in between, the matches before the gap no longer count: no trigger
is raised at that arrival, the result of the tick is the same whatever the
count was before it, and no trigger is raised afterwards before at least 4
further arrivals of the expected code. -/
theorem gap_after_previous_signal_discards_count (E : Nat) (s : LoopState) (prev sig : Signal)
    (d idle : Nat) (c : Int) (rest : List (Option Signal))
    (hv : sig.value = E) (hd : 1000 < d) (hd32 : d < 2 ^ 32)
    (hm : sig.millis % ULONG_MOD = (prev.millis + d) % ULONG_MOD)
    (hrest : (arrivalsOf E rest).length ≤ 3) :
    (loop E (runState E s (some prev :: List.replicate idle none)) (some sig)).chime_trigger
        = false ∧
    loop E { runState E s (some prev :: List.replicate idle none) with cnt := c } (some sig) =
      loop E (runState E s (some prev :: List.replicate idle none)) (some sig) ∧
    ∀ t ∈ run E (loop E (runState E s (some prev :: List.replicate idle none)) (some sig)).state
        rest, t.chime_trigger = false := by
  have hg : usub32 (sig.millis % ULONG_MOD)
      (runState E s (some prev :: List.replicate idle none)).prev_time > 1000 := by
    rw [runState_prev_signal, hm, usub32_wrap prev.millis d (by simpa [ULONG_MOD] using hd32)]
    exact hd
  obtain ⟨h1, h2, h3⟩ := loop_after_gap E _ sig c hv hg
  refine ⟨h1, h3, ?_⟩
  refine run_few E rest _ 0 (le_refl 0) (le_of_eq h2) ?_
  simp only [nrOfvalidCodes]
  omega

theorem gap_after_previous_signal_discards_count_witness :
    (loop 0xB65902 (runState 0xB65902 { powerOn with cnt := 4 }
        (some ⟨0x123456, 4294967000⟩ :: List.replicate 2 none))
        (some ⟨0xB65902, 705⟩)).chime_trigger = false ∧
    loop 0xB65902 { runState 0xB65902 { powerOn with cnt := 4 }
        (some ⟨0x123456, 4294967000⟩ :: List.replicate 2 none) with cnt := 3 }
        (some ⟨0xB65902, 705⟩) =
      loop 0xB65902 (runState 0xB65902 { powerOn with cnt := 4 }
        (some ⟨0x123456, 4294967000⟩ :: List.replicate 2 none)) (some ⟨0xB65902, 705⟩) ∧
    ∀ t ∈ run 0xB65902 (loop 0xB65902 (runState 0xB65902 { powerOn with cnt := 4 }
        (some ⟨0x123456, 4294967000⟩ :: List.replicate 2 none)) (some ⟨0xB65902, 705⟩)).state
        [some ⟨0xB65902, 800⟩, none, some ⟨0xB65902, 900⟩, some ⟨0xB65902, 1000⟩],
      t.chime_trigger = false :=
  gap_after_previous_signal_discards_count 0xB65902 { powerOn with cnt := 4 }
    ⟨0x123456, 4294967000⟩ ⟨0xB65902, 705⟩ 1001 2 3
    [some ⟨0xB65902, 800⟩, none, some ⟨0xB65902, 900⟩, some ⟨0xB65902, 1000⟩]
    (by decide) (by decide) (by decide) (by decide) (by decide)

/-! ## The idle heartbeat (C7) -/

set_option maxRecDepth 1000000 in
/-- C7, evaluated on the code: from power-on with no signal, the LED level at
the end of successive ticks is OFF for 399 ticks, ON at tick 400, OFF for the
400 ticks 401..800, ON at tick 801 and OFF at tick 802; the state after 401
ticks is the power-on state again, so the trace repeats with period 401. -/
theorem heartbeat_led_trace :
    (run 0xB65902 powerOn (List.replicate 802 none)).map (fun t => t.state.pin_led) =
      List.replicate 399 LED_OFF ++ [LED_ON] ++ List.replicate 400 LED_OFF ++
        [LED_ON, LED_OFF] ∧
    runState 0xB65902 powerOn (List.replicate 401 none) = powerOn ∧
    runState 0xB65902 powerOn (List.replicate 400 none) ≠ powerOn := by
  decide

/-! ## A trigger reloads the sequencer (C9) -/

theorem receive_with_chime (E : Nat) (s : LoopState) (inp : Option Signal) (r o f : Int) :
    receive E { s with chime_repeat := r, chime_on_count := o, chime_off_count := f } inp =
      ({ (receive E s inp).1 with chime_repeat := r, chime_on_count := o, chime_off_count := f },
        (receive E s inp).2) := by
  cases inp with
  | none => rfl
  | some sig =>
    simp only [receive]
    split_ifs <;> rfl

theorem drive_armed (s : LoopState) :
    (drive (arm s true)).state.chime_repeat = 2 ∧ (drive (arm s true)).state.chime_on_count = 59 ∧
    (drive (arm s true)).state.chime_off_count = 0 ∧
    (drive (arm s true)).state.pin_relay = RELAY_ON ∧
    (drive (arm s true)).writes = [(Pin.PIN_RELAY, RELAY_ON), (Pin.PIN_LED, LED_ON)] := by
  simp [drive, arm, chimeBranch, chimeOn, chimeOff, digitalWrite, decr32, CHIME_REPEAT,
    CHIME_ON_TIME, LOOP_DELAY]

/-- C9: for every state of the sequencer (idle, ON phase or OFF phase), a
tick that raises `chime_trigger` sets `chime_repeat = 2`, `chime_on_count = 60`
and `chime_off_count = 0` before the chime branch runs; the tick then ends
with counters (2, 59, 0) and the relay ON, and its whole result is the same
whatever the three counters were before, so a trigger in mid-sequence restarts
the full ring. -/
theorem trigger_reloads_chime_counters (E : Nat) (s : LoopState) (inp : Option Signal)
    (h : (loop E s inp).chime_trigger = true) :
    arm (receive E s inp).1 (receive E s inp).2 =
      { (receive E s inp).1 with chime_repeat := 2, chime_on_count := 60, chime_off_count := 0 } ∧
    (loop E s inp).state =
      (drive { (receive E s inp).1 with
        chime_repeat := 2, chime_on_count := 60, chime_off_count := 0 }).state ∧
    (loop E s inp).state.chime_repeat = 2 ∧ (loop E s inp).state.chime_on_count = 59 ∧
    (loop E s inp).state.chime_off_count = 0 ∧ (loop E s inp).state.pin_relay = RELAY_ON ∧
    ∀ r o f : Int,
      loop E { s with chime_repeat := r, chime_on_count := o, chime_off_count := f } inp =
        loop E s inp := by
  rw [loop_trigger] at h
  have hd := drive_armed (receive E s inp).1
  have ha : arm (receive E s inp).1 true =
      { (receive E s inp).1 with chime_repeat := 2, chime_on_count := 60, chime_off_count := 0 } :=
    rfl
  refine ⟨by rw [h, ha], ?_, ?_, ?_, ?_, ?_, ?_⟩
  · simp only [loop, h, ha]
  · simp only [loop, h]; exact hd.1
  · simp only [loop, h]; exact hd.2.1
  · simp only [loop, h]; exact hd.2.2.1
  · simp only [loop, h]; exact hd.2.2.2.1
  · intro r o f
    simp only [loop, receive_with_chime, h]
    rfl

theorem trigger_reloads_chime_counters_witness :
    arm
        (receive 0xB65902
          { powerOn with prev_time := 400, cnt := 4, chime_repeat := 1, chime_off_count := 77 }
          (some ⟨0xB65902, 500⟩)).1
        (receive 0xB65902
          { powerOn with prev_time := 400, cnt := 4, chime_repeat := 1, chime_off_count := 77 }
          (some ⟨0xB65902, 500⟩)).2 =
      { (receive 0xB65902
          { powerOn with prev_time := 400, cnt := 4, chime_repeat := 1, chime_off_count := 77 }
          (some ⟨0xB65902, 500⟩)).1 with
        chime_repeat := 2, chime_on_count := 60, chime_off_count := 0 } ∧
    (loop 0xB65902
        { powerOn with prev_time := 400, cnt := 4, chime_repeat := 1, chime_off_count := 77 }
        (some ⟨0xB65902, 500⟩)).state.chime_on_count = 59 :=
  have h := trigger_reloads_chime_counters 0xB65902
    { powerOn with prev_time := 400, cnt := 4, chime_repeat := 1, chime_off_count := 77 }
    (some ⟨0xB65902, 500⟩) (by decide)
  ⟨h.1, h.2.2.2.1⟩

/-! ## The heartbeat while the chime is active (C10) -/

theorem receive_led_flash_count (E : Nat) (s : LoopState) (inp : Option Signal) :
    (receive E s inp).1.led_flash_count = s.led_flash_count := by
  cases inp with
  | none => rfl
  | some sig =>
    simp only [receive]
    split_ifs <;> rfl

theorem receive_with_flash (E : Nat) (s : LoopState) (inp : Option Signal) (f : Int) :
    receive E { s with led_flash_count := f } inp =
      ({ (receive E s inp).1 with led_flash_count := f }, (receive E s inp).2) := by
  cases inp with
  | none => rfl
  | some sig =>
    simp only [receive]
    split_ifs <;> rfl

theorem arm_with_flash (s : LoopState) (b : Bool) (f : Int) :
    arm { s with led_flash_count := f } b = { arm s b with led_flash_count := f } := by
  cases b <;> rfl

theorem drive_active_with_flash (s : LoopState) (f : Int) (h : s.chime_repeat ≠ 0) :
    drive { s with led_flash_count := f } = drive s := by
  simp only [drive, h, ne_eq, not_false_eq_true, if_true, chimeBranch, chimeOn, chimeOff,
    digitalWrite]
  split_ifs <;> rfl

theorem drive_first_idle (s : LoopState) (h0 : s.chime_repeat = 0) (hf : s.led_flash_count = 400) :
    (drive s).state.led_flash_count = 399 ∧ (drive s).writes = [] := by
  simp [drive, h0, flashBranch, hf, decr32]

theorem loop_first_idle (E : Nat) (s : LoopState) (inp : Option Signal)
    (h0 : s.chime_repeat = 0) (hf : s.led_flash_count = 400)
    (hq : (loop E s inp).chime_trigger = false) :
    (loop E s inp).state.led_flash_count = 399 ∧ (loop E s inp).writes = [] := by
  rw [loop_trigger] at hq
  have hr := receive_chime_repeat E s inp
  have hl := receive_led_flash_count E s inp
  have := drive_first_idle (receive E s inp).1 (by rw [hr.1, h0]) (by rw [hl, hf])
  simpa only [loop, hq, arm_false] using this

/-- C10: in every tick in which `chime_repeat > 0` when lines 176-226 are
reached, the tick performs exactly the pin writes of the two chime blocks (the
heartbeat branch does not run), `led_flash_count` is 400 at the end of the
tick, and the result of the tick does not depend on the value
`led_flash_count` had before; and if that tick ends with `chime_repeat = 0`,
the next tick without a trigger writes no pin and ends with
`led_flash_count = 399`, one step down from 400. -/
theorem active_tick_presets_heartbeat (E : Nat) (s : LoopState) (inp : Option Signal)
    (h : 0 < (arm (receive E s inp).1 (receive E s inp).2).chime_repeat) :
    (loop E s inp).state.led_flash_count = 400 ∧
    (loop E s inp).writes =
      (chimeOff (chimeOn
        { state := arm (receive E s inp).1 (receive E s inp).2, writes := [] })).writes ∧
    (∀ f : Int, loop E { s with led_flash_count := f } inp = loop E s inp) ∧
    (∀ inp2 : Option Signal, (loop E s inp).state.chime_repeat = 0 →
      (loop E (loop E s inp).state inp2).chime_trigger = false →
      (loop E (loop E s inp).state inp2).state.led_flash_count = 399 ∧
        (loop E (loop E s inp).state inp2).writes = []) := by
  have hne : (arm (receive E s inp).1 (receive E s inp).2).chime_repeat ≠ 0 := by omega
  have hd : drive (arm (receive E s inp).1 (receive E s inp).2) =
      chimeBranch { state := arm (receive E s inp).1 (receive E s inp).2, writes := [] } := by
    simp [drive, hne]
  have hflash : (loop E s inp).state.led_flash_count = 400 := by
    simp only [loop, hd, chimeBranch]
    rfl
  refine ⟨hflash, ?_, ?_, ?_⟩
  · simp only [loop, hd, chimeBranch]
  · intro f
    simp only [loop, receive_with_flash, arm_with_flash]
    rw [drive_active_with_flash _ f hne]
  · intro inp2 h0 hq
    exact loop_first_idle E _ inp2 h0 hflash hq

theorem active_tick_presets_heartbeat_witness :
    (loop 0xB65902 { powerOn with chime_repeat := 1, chime_off_count := 1, led_flash_count := 7 }
        none).state.led_flash_count = 400 ∧
    (loop 0xB65902 (loop 0xB65902
        { powerOn with chime_repeat := 1, chime_off_count := 1, led_flash_count := 7 }
        none).state (some ⟨0x1, 50⟩)).state.led_flash_count = 399 :=
  have h := active_tick_presets_heartbeat 0xB65902
    { powerOn with chime_repeat := 1, chime_off_count := 1, led_flash_count := 7 } none
    (by decide)
  ⟨h.1, (h.2.2.2 (some ⟨0x1, 50⟩) (by decide) (by decide)).1⟩

/-! ## One received signal (C11, C12, C19) -/

theorem usub32_mod_left (a b : Nat) : usub32 (a % ULONG_MOD) b = usub32 a b := by
  simp [usub32, Nat.mod_mod]

/-- C11, as stated, fails: from the power-on state (`prev_time = 0`) a
received code `0x123456`, different from the expected `0xB65902`, at
`millis() = 1300` leaves `cnt` at 0 and raises no trigger, but the stored
timestamp `prev_time` becomes 1300. -/
theorem other_code_moves_timestamp_counterexample :
    (0x123456 : Nat) ≠ 0xB65902 ∧ powerOn.prev_time = 0 ∧
    (loop 0xB65902 powerOn (some ⟨0x123456, 1300⟩)).chime_trigger = false ∧
    (loop 0xB65902 powerOn (some ⟨0x123456, 1300⟩)).state.cnt = powerOn.cnt ∧
    (loop 0xB65902 powerOn (some ⟨0x123456, 1300⟩)).state.prev_time = 1300 := by
  decide

/-- C11, amended: for every debounce state, every time `now` and every
received code different from the expected code, the tick raises no trigger and
leaves `cnt` unchanged, while the stored timestamp `prev_time` is set to
`now` (as a 32-bit value): the receive block changes `time` and `prev_time`
and nothing else. -/
theorem other_code_keeps_count (E : Nat) (s : LoopState) (sig : Signal) (h : sig.value ≠ E) :
    (loop E s (some sig)).chime_trigger = false ∧
    (loop E s (some sig)).state.cnt = s.cnt ∧
    (loop E s (some sig)).state.prev_time = sig.millis % ULONG_MOD ∧
    (receive E s (some sig)).1 =
      { s with time := sig.millis % ULONG_MOD, prev_time := sig.millis % ULONG_MOD } := by
  refine ⟨?_, ?_, ?_, ?_⟩
  · rw [loop_trigger, receive_other E s sig h]
  · rw [loop_cnt, receive_other E s sig h]
  · rw [loop_prev_time, receive_prev_time]
  · rw [receive_other E s sig h]

theorem other_code_keeps_count_witness :
    (loop 0xB65902 { powerOn with cnt := 4, prev_time := 700 }
        (some ⟨0xB65903, 900⟩)).chime_trigger = false ∧
    (loop 0xB65902 { powerOn with cnt := 4, prev_time := 700 } (some ⟨0xB65903, 900⟩)).state.cnt =
      ({ powerOn with cnt := 4, prev_time := 700 } : LoopState).cnt ∧
    (loop 0xB65902 { powerOn with cnt := 4, prev_time := 700 }
        (some ⟨0xB65903, 900⟩)).state.prev_time = 900 % ULONG_MOD :=
  have h := other_code_keeps_count 0xB65902 { powerOn with cnt := 4, prev_time := 700 }
    ⟨0xB65903, 900⟩ (by decide)
  ⟨h.1, h.2.1, h.2.2.1⟩

/-- C12, evaluated on the code: for every debounce state and every arrival of
the expected code at time `now`, the new count is 0 (not 1) when the 32-bit
difference `now - prev_time` exceeds 1000 and `cnt++` otherwise, the new
`prev_time` is `now`, and `chime_trigger` is (new count = 5).  At count 3,
`prev_time = 0` and `now = 2000` the new count is 0. -/
theorem matching_arrival_step (E : Nat) (s : LoopState) (now : Nat) :
    (loop E s (some ⟨E, now⟩)).state.cnt =
      (if usub32 now s.prev_time > 1000 then 0 else incr32 s.cnt) ∧
    (loop E s (some ⟨E, now⟩)).state.prev_time = now % ULONG_MOD ∧
    (loop E s (some ⟨E, now⟩)).chime_trigger =
      decide ((loop E s (some ⟨E, now⟩)).state.cnt = nrOfvalidCodes) ∧
    (loop 0xB65902 { powerOn with cnt := 3 } (some ⟨0xB65902, 2000⟩)).state.cnt = 0 := by
  refine ⟨?_, ?_, ?_, by decide⟩
  · rw [loop_cnt, receive_match_cnt E s ⟨E, now⟩ rfl, usub32_mod_left]
  · rw [loop_prev_time, receive_prev_time]
  · rw [loop_trigger, loop_cnt, receive_match_trigger E s ⟨E, now⟩ rfl]

/-- C19: with `time` and `prev_time` held as 32-bit unsigned values, for every
previous timestamp `p` and true elapsed time `d < 2^32`, the unsigned
difference of `(p + d) mod 2^32` and `p mod 2^32` is `d`, so the test
`time - prev_time > 1000` decides `d > 1000`, and an arrival of the expected
code `d` ms after the previous signal resets the count exactly when
`d > 1000`, also when `millis()` wrapped in between. -/
theorem window_test_survives_wraparound (p d : Nat) (hd : d < 2 ^ 32) :
    usub32 ((p + d) % ULONG_MOD) (p % ULONG_MOD) = d ∧
    (usub32 ((p + d) % ULONG_MOD) (p % ULONG_MOD) > 1000 ↔ d > 1000) ∧
    ∀ (E : Nat) (s : LoopState), s.prev_time = p % ULONG_MOD →
      (loop E s (some ⟨E, p + d⟩)).state.cnt = (if d > 1000 then 0 else incr32 s.cnt) := by
  have hw := usub32_wrap p d (by simpa [ULONG_MOD] using hd)
  refine ⟨hw, by rw [hw], ?_⟩
  intro E s hp
  rw [loop_cnt, receive_match_cnt E s ⟨E, p + d⟩ rfl, hp, hw]

theorem window_test_survives_wraparound_witness :
    usub32 ((4294967000 + 500) % ULONG_MOD) (4294967000 % ULONG_MOD) = 500 ∧
    (usub32 ((4294967000 + 500) % ULONG_MOD) (4294967000 % ULONG_MOD) > 1000 ↔ 500 > 1000) :=
  have h := window_test_survives_wraparound 4294967000 500 (by decide)
  ⟨h.1, h.2.1⟩


/-! ## The end-of-tick invariant -/

theorem TickInv_receive (E : Nat) (s : LoopState) (inp : Option Signal) :
    TickInv (receive E s inp).1 ↔ TickInv s := by
  cases inp with
  | none => exact Iff.rfl
  | some sig =>
    simp only [receive]
    split_ifs <;> exact Iff.rfl

theorem decr32_pos (c : Int) (h : 0 ≤ c) : decr32 c = c - 1 := by
  unfold decr32
  split_ifs <;> omega

theorem drive_flash_one (s : LoopState) (h0 : s.chime_repeat = 0) (hf : s.led_flash_count = 1) :
    drive s = { state := { s with pin_led := LED_ON, led_flash_count := 0 },
                writes := [(Pin.PIN_LED, LED_ON)] } := by
  simp [drive, h0, flashBranch, hf, digitalWrite, decr32]

theorem drive_flash_zero (s : LoopState) (h0 : s.chime_repeat = 0) (hf : s.led_flash_count = 0) :
    drive s = { state := { s with pin_led := LED_OFF, led_flash_count := 400 },
                writes := [(Pin.PIN_LED, LED_OFF)] } := by
  simp [drive, h0, flashBranch, hf, digitalWrite, LED_FLASH_TIME, LOOP_DELAY]

theorem drive_flash_count (s : LoopState) (h0 : s.chime_repeat = 0) (hf0 : s.led_flash_count ≠ 0)
    (hf1 : s.led_flash_count ≠ 1) :
    drive s = { state := { s with led_flash_count := decr32 s.led_flash_count }, writes := [] } := by
  simp [drive, h0, flashBranch, hf0, hf1]

theorem drive_on (s : LoopState) (hr : s.chime_repeat ≠ 0) (hon : 2 ≤ s.chime_on_count)
    (hoff : s.chime_off_count = 0) :
    drive s = { state := { s with chime_on_count := s.chime_on_count - 1, pin_relay := RELAY_ON,
                                  pin_led := LED_ON, led_flash_count := 400 },
                writes := [(Pin.PIN_RELAY, RELAY_ON), (Pin.PIN_LED, LED_ON)] } := by
  have h1 : s.chime_on_count ≠ 0 := by omega
  have h2 : decr32 s.chime_on_count = s.chime_on_count - 1 := decr32_pos _ (by omega)
  have h3 : s.chime_on_count - 1 ≠ 0 := by omega
  simp [drive, hr, chimeBranch, chimeOn, chimeOff, digitalWrite, h1, h2, h3, hoff,
    LED_FLASH_TIME, LOOP_DELAY]

theorem drive_on_last (s : LoopState) (hr : s.chime_repeat ≠ 0) (hon : s.chime_on_count = 1)
    (hoff : s.chime_off_count = 0) :
    drive s = { state := { s with chime_on_count := 0, chime_off_count := 149,
                                  pin_relay := RELAY_OFF, pin_led := LED_OFF,
                                  led_flash_count := 400 },
                writes := [(Pin.PIN_RELAY, RELAY_ON), (Pin.PIN_LED, LED_ON),
                           (Pin.PIN_RELAY, RELAY_OFF), (Pin.PIN_LED, LED_OFF)] } := by
  simp [drive, hr, chimeBranch, chimeOn, chimeOff, digitalWrite, hon, hoff, decr32,
    LED_FLASH_TIME, LOOP_DELAY, CHIME_OFF_TIME]

theorem drive_off (s : LoopState) (hr : s.chime_repeat ≠ 0) (hon : s.chime_on_count = 0)
    (hoff : 2 ≤ s.chime_off_count) :
    drive s = { state := { s with chime_off_count := s.chime_off_count - 1,
                                  pin_relay := RELAY_OFF, pin_led := LED_OFF,
                                  led_flash_count := 400 },
                writes := [(Pin.PIN_RELAY, RELAY_OFF), (Pin.PIN_LED, LED_OFF)] } := by
  have h1 : s.chime_off_count ≠ 0 := by omega
  have h2 : decr32 s.chime_off_count = s.chime_off_count - 1 := decr32_pos _ (by omega)
  have h3 : s.chime_off_count - 1 ≠ 0 := by omega
  simp [drive, hr, chimeBranch, chimeOn, chimeOff, digitalWrite, h1, h2, h3, hon,
    LED_FLASH_TIME, LOOP_DELAY]

theorem drive_off_last (s : LoopState) (hr : 0 < s.chime_repeat) (hon : s.chime_on_count = 0)
    (hoff : s.chime_off_count = 1) :
    drive s = { state := { s with chime_repeat := s.chime_repeat - 1, chime_on_count := 60,
                                  chime_off_count := 0,
                                  pin_relay := RELAY_OFF, pin_led := LED_OFF,
                                  led_flash_count := 400 },
                writes := [(Pin.PIN_RELAY, RELAY_OFF), (Pin.PIN_LED, LED_OFF)] } := by
  have h1 : s.chime_repeat ≠ 0 := by omega
  have h2 : decr32 s.chime_repeat = s.chime_repeat - 1 := decr32_pos _ (by omega)
  have h3 : decr32 1 = 0 := by decide
  simp [drive, h1, chimeBranch, chimeOn, chimeOff, digitalWrite, h2, h3, hon, hoff,
    LED_FLASH_TIME, LOOP_DELAY, CHIME_ON_TIME]

theorem TickInv_drive (s : LoopState) (h : TickInv s) : TickInv (drive s).state := by
  obtain ⟨hshape, hrelay, hled⟩ := h
  rcases hshape with ⟨h0, hoff, hon⟩ | ⟨hr, ⟨hon1, hon2, hoff⟩ | ⟨hon, hoff1, hoff2⟩⟩
  · have hrel : s.pin_relay ≠ RELAY_ON := fun hc => (hrelay hc).1 h0
    by_cases hf1 : s.led_flash_count = 1
    · rw [drive_flash_one s h0 hf1]
      refine ⟨Or.inl ⟨h0, hoff, hon⟩, fun hc => absurd hc hrel, ?_⟩
      simp [h0]
    · by_cases hf0 : s.led_flash_count = 0
      · rw [drive_flash_zero s h0 hf0]
        refine ⟨Or.inl ⟨h0, hoff, hon⟩, fun hc => absurd hc hrel, ?_⟩
        simp [h0, hrel, LED_ON, LED_OFF]
      · rw [drive_flash_count s h0 hf0 hf1]
        refine ⟨Or.inl ⟨h0, hoff, hon⟩, fun hc => absurd hc hrel, ?_⟩
        have hd : decr32 s.led_flash_count ≠ 0 := by
          unfold decr32
          split_ifs <;> omega
        have hl : s.pin_led ≠ LED_ON := fun hc => by
          rcases hled.1 hc with h1 | ⟨_, h2⟩
          · exact hrel h1
          · exact hf0 h2
        simp [hd, hl, hrel]
  · have hr0 : s.chime_repeat ≠ 0 := by omega
    by_cases h1 : s.chime_on_count = 1
    · rw [drive_on_last s hr0 h1 hoff]
      unfold TickInv chimeShape
      dsimp only
      refine ⟨Or.inr ⟨hr, Or.inr ⟨rfl, by omega, by omega⟩⟩, ?_, ?_⟩
      · simp [RELAY_ON, RELAY_OFF]
      · simp [hr0, LED_ON, LED_OFF, RELAY_ON, RELAY_OFF]
    · rw [drive_on s hr0 (by omega) hoff]
      unfold TickInv chimeShape
      dsimp only
      refine ⟨Or.inr ⟨hr, Or.inl ⟨by omega, by omega, hoff⟩⟩, ?_, ?_⟩
      · intro _
        exact ⟨hr0, by omega, hoff⟩
      · simp
  · have hr0 : s.chime_repeat ≠ 0 := by omega
    by_cases h1 : s.chime_off_count = 1
    · rw [drive_off_last s (by omega) hon h1]
      unfold TickInv chimeShape
      dsimp only
      refine ⟨?_, ?_, ?_⟩
      · rcases hr with hr | hr
        · exact Or.inl ⟨by omega, rfl, Or.inr rfl⟩
        · exact Or.inr ⟨Or.inl (by omega), Or.inl ⟨by omega, by omega, rfl⟩⟩
      · simp [RELAY_ON, RELAY_OFF]
      · simp [LED_ON, LED_OFF, RELAY_ON, RELAY_OFF]
    · rw [drive_off s hr0 hon (by omega)]
      unfold TickInv chimeShape
      dsimp only
      refine ⟨Or.inr ⟨hr, Or.inr ⟨hon, by omega, by omega⟩⟩, ?_, ?_⟩
      · simp [RELAY_ON, RELAY_OFF]
      · simp [hr0, LED_ON, LED_OFF, RELAY_ON, RELAY_OFF]

theorem arm_true_fields (s : LoopState) :
    (arm s true).chime_repeat = 2 ∧ (arm s true).chime_on_count = 60 ∧
      (arm s true).chime_off_count = 0 := by
  simp [arm, CHIME_REPEAT, CHIME_ON_TIME, LOOP_DELAY]

theorem TickInv_armed (s : LoopState) : TickInv (drive (arm s true)).state := by
  obtain ⟨h2, h60, h0⟩ := arm_true_fields s
  rw [drive_on (arm s true) (by omega) (by omega) h0]
  unfold TickInv chimeShape
  dsimp only
  refine ⟨Or.inr ⟨Or.inr h2, Or.inl ⟨by omega, by omega, h0⟩⟩,
    fun _ => ⟨by omega, by omega, h0⟩, ?_⟩
  simp

theorem TickInv_loop (E : Nat) (s : LoopState) (inp : Option Signal) (h : TickInv s) :
    TickInv (loop E s inp).state := by
  simp only [loop]
  cases hb : (receive E s inp).2 with
  | true => exact TickInv_armed _
  | false => exact TickInv_drive _ ((TickInv_receive E s inp).2 h)

theorem TickInv_runState (E : Nat) (inps : List (Option Signal)) :
    ∀ s : LoopState, TickInv s → TickInv (runState E s inps) := by
  induction inps with
  | nil => intro s h; exact h
  | cons inp rest ih => intro s h; exact ih _ (TickInv_loop E s inp h)

theorem TickInv_powerOn : TickInv powerOn := by
  unfold TickInv chimeShape
  simp [powerOn, LED_ON, LED_OFF, RELAY_ON, RELAY_OFF, LED_FLASH_TIME, LOOP_DELAY]


/-! ## Countdown of a ring -/

theorem receive_chime_counts (E : Nat) (s : LoopState) (inp : Option Signal) :
    (receive E s inp).1.chime_on_count = s.chime_on_count ∧
      (receive E s inp).1.chime_off_count = s.chime_off_count := by
  cases inp with
  | none => exact ⟨rfl, rfl⟩
  | some sig =>
    simp only [receive]
    split_ifs <;> exact ⟨rfl, rfl⟩

theorem drive_chime (s : LoopState) (h : chimeShape s) :
    (s.chime_repeat = 0 ∧ (drive s).state.chime_repeat = 0 ∧
        (drive s).state.chime_on_count = s.chime_on_count ∧
        (drive s).state.chime_off_count = s.chime_off_count) ∨
    (s.chime_repeat ≠ 0 ∧ s.chime_off_count = 0 ∧ 2 ≤ s.chime_on_count ∧
        (drive s).state.chime_repeat = s.chime_repeat ∧
        (drive s).state.chime_on_count = s.chime_on_count - 1 ∧
        (drive s).state.chime_off_count = 0) ∨
    (s.chime_repeat ≠ 0 ∧ s.chime_off_count = 0 ∧ s.chime_on_count = 1 ∧
        (drive s).state.chime_repeat = s.chime_repeat ∧
        (drive s).state.chime_on_count = 0 ∧
        (drive s).state.chime_off_count = 149) ∨
    (s.chime_repeat ≠ 0 ∧ s.chime_on_count = 0 ∧ 2 ≤ s.chime_off_count ∧
        (drive s).state.chime_repeat = s.chime_repeat ∧
        (drive s).state.chime_on_count = 0 ∧
        (drive s).state.chime_off_count = s.chime_off_count - 1) ∨
    (s.chime_repeat ≠ 0 ∧ s.chime_on_count = 0 ∧ s.chime_off_count = 1 ∧
        (drive s).state.chime_repeat = s.chime_repeat - 1 ∧
        (drive s).state.chime_on_count = 60 ∧
        (drive s).state.chime_off_count = 0) := by
  rcases h with ⟨h0, hoff, hon⟩ | ⟨hr, ⟨hon1, hon2, hoff⟩ | ⟨hon, hoff1, hoff2⟩⟩
  · left
    by_cases hf1 : s.led_flash_count = 1
    · rw [drive_flash_one s h0 hf1]
      exact ⟨h0, h0, rfl, rfl⟩
    · by_cases hf0 : s.led_flash_count = 0
      · rw [drive_flash_zero s h0 hf0]
        exact ⟨h0, h0, rfl, rfl⟩
      · rw [drive_flash_count s h0 hf0 hf1]
        exact ⟨h0, h0, rfl, rfl⟩
  · have hr0 : s.chime_repeat ≠ 0 := by omega
    by_cases h1 : s.chime_on_count = 1
    · right; right; left
      rw [drive_on_last s hr0 h1 hoff]
      exact ⟨hr0, hoff, h1, rfl, rfl, rfl⟩
    · right; left
      rw [drive_on s hr0 (by omega) hoff]
      exact ⟨hr0, hoff, by omega, rfl, rfl, hoff⟩
  · have hr0 : s.chime_repeat ≠ 0 := by omega
    by_cases h1 : s.chime_off_count = 1
    · right; right; right; right
      rw [drive_off_last s (by omega) hon h1]
      exact ⟨hr0, hon, h1, rfl, rfl, rfl⟩
    · right; right; right; left
      rw [drive_off s hr0 hon (by omega)]
      exact ⟨hr0, hon, by omega, rfl, hon, rfl⟩

theorem ticksLeft_bounds (s : LoopState) (h : chimeShape s) :
    0 ≤ ticksLeft s ∧ ticksLeft s ≤ 418 ∧ (ticksLeft s = 0 ↔ s.chime_repeat = 0) := by
  unfold ticksLeft
  rcases h with ⟨h0, hoff, hon⟩ | ⟨hr, ⟨hon1, hon2, hoff⟩ | ⟨hon, hoff1, hoff2⟩⟩
  · simp [h0]
  · rcases hr with hr | hr <;> simp [hr, hoff] <;> omega
  · have hne : s.chime_off_count ≠ 0 := by omega
    rcases hr with hr | hr <;> simp [hr, hne] <;> omega

theorem ticksLeft_drive (s : LoopState) (h : chimeShape s) :
    ticksLeft (drive s).state = ticksLeft s - 1 ∨
      (ticksLeft s = 0 ∧ ticksLeft (drive s).state = 0) := by
  have hcases := drive_chime s h
  unfold ticksLeft
  rcases hcases with ⟨a, b, c, d⟩ | ⟨a, b, c, d, e, f⟩ | ⟨a, b, c, d, e, f⟩ |
    ⟨a, b, c, d, e, f⟩ | ⟨a, b, c, d, e, f⟩
  · right
    simp [a, b]
  · left
    rw [d, e, f]
    simp [a, b]
    omega
  · left
    rw [d, e, f]
    simp [a, b, c]
    omega
  · left
    have hne : s.chime_off_count ≠ 0 := by omega
    have hne2 : s.chime_off_count - 1 ≠ 0 := by omega
    rw [d, e, f]
    simp [a, hne, hne2]
    omega
  · left
    have hr : s.chime_repeat = 1 ∨ s.chime_repeat = 2 := by
      rcases h with ⟨h0, _, _⟩ | ⟨hr, _⟩
      · exact absurd h0 a
      · exact hr
    rw [d, e, f]
    rcases hr with hr | hr <;> simp [hr, c]

theorem loop_quiet_state (E : Nat) (s : LoopState) (inp : Option Signal)
    (hq : (loop E s inp).chime_trigger = false) :
    (loop E s inp).state = (drive (receive E s inp).1).state := by
  rw [loop_trigger] at hq
  simp only [loop, hq, arm_false]

theorem chimeShape_receive (E : Nat) (s : LoopState) (inp : Option Signal) :
    chimeShape (receive E s inp).1 ↔ chimeShape s := by
  unfold chimeShape
  rw [(receive_chime_repeat E s inp).1, (receive_chime_counts E s inp).1,
    (receive_chime_counts E s inp).2]

theorem ticksLeft_receive (E : Nat) (s : LoopState) (inp : Option Signal) :
    ticksLeft (receive E s inp).1 = ticksLeft s := by
  unfold ticksLeft
  rw [(receive_chime_repeat E s inp).1, (receive_chime_counts E s inp).1,
    (receive_chime_counts E s inp).2]

theorem run_down (E : Nat) (more : List (Option Signal)) :
    ∀ s : LoopState, TickInv s → (∀ t ∈ run E s more, t.chime_trigger = false) →
      ticksLeft s ≤ more.length → ticksLeft (runState E s more) = 0 := by
  induction more with
  | nil =>
    intro s h _ hl
    have := (ticksLeft_bounds s h.1).1
    simp only [List.length_nil, Nat.cast_zero] at hl
    simp only [runState]
    omega
  | cons inp rest ih =>
    intro s h hq hl
    have hq1 : (loop E s inp).chime_trigger = false := hq _ (by simp [run])
    have hs := loop_quiet_state E s inp hq1
    have hsh : chimeShape (receive E s inp).1 := (chimeShape_receive E s inp).2 h.1
    have hstep := ticksLeft_drive (receive E s inp).1 hsh
    rw [ticksLeft_receive, ← hs] at hstep
    simp only [List.length_cons, Nat.cast_add, Nat.cast_one] at hl
    simp only [runState]
    refine ih _ (TickInv_loop E s inp h)
      (fun u hu => hq u (by simp only [run, List.mem_cons]; exact Or.inr hu)) ?_
    have := (ticksLeft_bounds s h.1).1
    omega


theorem level_off_of_ne_on (l : Level) (h : l ≠ RELAY_ON) : l = RELAY_OFF := by
  cases l
  · rfl
  · exact absurd rfl h

theorem drive_active_flash (s : LoopState) (h : s.chime_repeat ≠ 0) :
    (drive s).state.led_flash_count = 400 := by
  simp only [drive, h, ne_eq, not_false_eq_true, if_true, chimeBranch]
  rfl

theorem loop_active_flash (E : Nat) (s : LoopState) (inp : Option Signal)
    (h : s.chime_repeat ≠ 0 ∨ (loop E s inp).chime_trigger = true) :
    (loop E s inp).state.led_flash_count = 400 := by
  simp only [loop]
  apply drive_active_flash
  cases hb : (receive E s inp).2 with
  | true =>
    rw [(arm_true_fields _).1]
    decide
  | false =>
    rw [arm_false, (receive_chime_repeat E s inp).1]
    rcases h with h | h
    · exact h
    · rw [loop_trigger, hb] at h
      exact absurd h (by decide)

theorem armed_shape (s : LoopState) (b : Bool) (h : chimeShape s) :
    0 ≤ (arm s b).chime_repeat := by
  cases b with
  | true =>
    rw [(arm_true_fields s).1]
    decide
  | false =>
    rw [arm_false]
    unfold chimeShape at h
    omega

/-! ## The three phases (C14) -/

/-- C14: in every state reached at the end of a tick from power-on, under any
sequence of signals, exactly one of idle (`chime_repeat = 0`), ringing-on
(`chime_repeat > 0`, `chime_on_count > 0`, `chime_off_count = 0`) and
ringing-off (`chime_repeat > 0`, `chime_on_count = 0`, `chime_off_count > 0`)
holds; and in the next tick, whatever its input, the chime branch runs when
`chime_repeat > 0` at the arbitration of lines 176-226 and the heartbeat
branch runs otherwise. -/
theorem exactly_one_phase (E : Nat) (inps : List (Option Signal)) :
    ((isIdle (runState E powerOn inps) ∧ ¬isRingingOn (runState E powerOn inps) ∧
        ¬isRingingOff (runState E powerOn inps)) ∨
      (¬isIdle (runState E powerOn inps) ∧ isRingingOn (runState E powerOn inps) ∧
        ¬isRingingOff (runState E powerOn inps)) ∨
      (¬isIdle (runState E powerOn inps) ∧ ¬isRingingOn (runState E powerOn inps) ∧
        isRingingOff (runState E powerOn inps))) ∧
    ∀ inp : Option Signal,
      (0 < (arm (receive E (runState E powerOn inps) inp).1
              (receive E (runState E powerOn inps) inp).2).chime_repeat →
        drive (arm (receive E (runState E powerOn inps) inp).1
              (receive E (runState E powerOn inps) inp).2) =
          chimeBranch ⟨arm (receive E (runState E powerOn inps) inp).1
              (receive E (runState E powerOn inps) inp).2, []⟩) ∧
      (¬0 < (arm (receive E (runState E powerOn inps) inp).1
              (receive E (runState E powerOn inps) inp).2).chime_repeat →
        drive (arm (receive E (runState E powerOn inps) inp).1
              (receive E (runState E powerOn inps) inp).2) =
          flashBranch ⟨arm (receive E (runState E powerOn inps) inp).1
              (receive E (runState E powerOn inps) inp).2, []⟩) := by
  have hinv := TickInv_runState E inps powerOn TickInv_powerOn
  refine ⟨?_, ?_⟩
  · have hs := hinv.1
    unfold chimeShape at hs
    unfold isIdle isRingingOn isRingingOff
    omega
  · intro inp
    have hge := armed_shape (receive E (runState E powerOn inps) inp).1
      (receive E (runState E powerOn inps) inp).2
      ((chimeShape_receive E _ inp).2 hinv.1)
    constructor
    · intro hpos
      have hne : (arm (receive E (runState E powerOn inps) inp).1
          (receive E (runState E powerOn inps) inp).2).chime_repeat ≠ 0 := by omega
      simp [drive, hne]
    · intro hnpos
      have heq : (arm (receive E (runState E powerOn inps) inp).1
          (receive E (runState E powerOn inps) inp).2).chime_repeat = 0 := by omega
      simp [drive, heq]

/-! ## The relay (C16) -/

/-- C16: in every state reached at the end of a tick from power-on, under any
sequence of signals, if the relay pin is ON then `chime_repeat > 0`,
`chime_on_count > 0` and `chime_off_count = 0`; and whenever
`chime_repeat = 0` the relay pin is OFF. -/
theorem relay_on_only_while_ringing_on (E : Nat) (inps : List (Option Signal)) :
    ((runState E powerOn inps).pin_relay = RELAY_ON → isRingingOn (runState E powerOn inps)) ∧
    ((runState E powerOn inps).chime_repeat = 0 →
      (runState E powerOn inps).pin_relay = RELAY_OFF) := by
  have hinv := TickInv_runState E inps powerOn TickInv_powerOn
  obtain ⟨hs, hrel, _⟩ := hinv
  constructor
  · intro hon
    obtain ⟨h1, h2, h3⟩ := hrel hon
    unfold chimeShape at hs
    unfold isRingingOn
    omega
  · intro h0
    exact level_off_of_ne_on _ (fun hon => (hrel hon).1 h0)

/-! ## The LED (C18) -/

/-- C18: in every state reached at the end of a tick from power-on, under any
sequence of signals, the LED is lit exactly when the relay is ON or
(`chime_repeat = 0` and `led_flash_count = 0`); so if a tick ends idle with
the LED lit and the next tick ends idle too, the LED is off after it, and a
tick that starts with the chime active and ends idle leaves the LED off. -/
theorem led_determined_by_counters (E : Nat) (inps : List (Option Signal)) :
    ((runState E powerOn inps).pin_led = LED_ON ↔
      ((runState E powerOn inps).pin_relay = RELAY_ON ∨
        ((runState E powerOn inps).chime_repeat = 0 ∧
          (runState E powerOn inps).led_flash_count = 0))) ∧
    (∀ inp : Option Signal,
      (runState E powerOn inps).chime_repeat = 0 → (runState E powerOn inps).pin_led = LED_ON →
      (loop E (runState E powerOn inps) inp).state.chime_repeat = 0 →
      (loop E (runState E powerOn inps) inp).state.pin_led = LED_OFF) ∧
    (∀ inp : Option Signal,
      (runState E powerOn inps).chime_repeat ≠ 0 →
      (loop E (runState E powerOn inps) inp).state.chime_repeat = 0 →
      (loop E (runState E powerOn inps) inp).state.pin_led = LED_OFF) := by
  have hinv := TickInv_runState E inps powerOn TickInv_powerOn
  refine ⟨hinv.2.2, ?_, ?_⟩
  · intro inp h0 hled hnext
    have hrel : (runState E powerOn inps).pin_relay ≠ RELAY_ON := fun hc => (hinv.2.1 hc).1 h0
    have hf : (runState E powerOn inps).led_flash_count = 0 := by
      rcases hinv.2.2.1 hled with h | ⟨_, h⟩
      · exact absurd h hrel
      · exact h
    have hq : (loop E (runState E powerOn inps) inp).chime_trigger = false := by
      cases hb : (loop E (runState E powerOn inps) inp).chime_trigger with
      | false => rfl
      | true =>
        rw [loop_trigger] at hb
        have : (loop E (runState E powerOn inps) inp).state.chime_repeat = 2 := by
          simp only [loop, hb]
          exact (drive_armed _).1
        omega
    rw [loop_quiet_state E _ inp hq,
      drive_flash_zero _ (by rw [(receive_chime_repeat E _ inp).1, h0])
        (by rw [receive_led_flash_count, hf])]
  · intro inp hact hnext
    have hinv2 := TickInv_loop E _ inp hinv
    have hflash := loop_active_flash E (runState E powerOn inps) inp (Or.inl hact)
    have hrel : (loop E (runState E powerOn inps) inp).state.pin_relay ≠ RELAY_ON :=
      fun hc => (hinv2.2.1 hc).1 hnext
    have hnot : ¬(loop E (runState E powerOn inps) inp).state.pin_led = LED_ON := by
      intro hc
      rcases hinv2.2.2.1 hc with h | ⟨_, h⟩
      · exact hrel h
      · rw [hflash] at h
        exact absurd h (by decide)
    cases hl : (loop E (runState E powerOn inps) inp).state.pin_led with
    | LOW => exact absurd hl hnot
    | HIGH => rfl


/-! ## The end of a ring (C15, C17) -/

theorem run_on_count (E : Nat) (more : List (Option Signal)) :
    ∀ s : LoopState, TickInv s → (s.chime_repeat = 0 → s.chime_on_count = 60) →
      (∀ t ∈ run E s more, t.chime_trigger = false) →
      ((runState E s more).chime_repeat = 0 → (runState E s more).chime_on_count = 60) := by
  induction more with
  | nil => intro s _ hk _; exact hk
  | cons inp rest ih =>
    intro s h hk hq
    have hq1 : (loop E s inp).chime_trigger = false := hq _ (by simp [run])
    have hs := loop_quiet_state E s inp hq1
    have hsh : chimeShape (receive E s inp).1 := (chimeShape_receive E s inp).2 h.1
    have hcases := drive_chime (receive E s inp).1 hsh
    rw [← hs, (receive_chime_repeat E s inp).1, (receive_chime_counts E s inp).1,
      (receive_chime_counts E s inp).2] at hcases
    simp only [runState]
    refine ih _ (TickInv_loop E s inp h) ?_
      (fun u hu => hq u (by simp only [run, List.mem_cons]; exact Or.inr hu))
    intro h0
    rcases hcases with ⟨a, b, c, d⟩ | ⟨a, b, c, d, e, f⟩ | ⟨a, b, c, d, e, f⟩ |
      ⟨a, b, c, d, e, f⟩ | ⟨a, b, c, d, e, f⟩
    · rw [c]
      exact hk a
    · omega
    · omega
    · omega
    · exact e

theorem idle_ticks_quiet (E : Nat) (n : Nat) :
    ∀ s : LoopState, ∀ t ∈ run E s (List.replicate n none), t.chime_trigger = false := by
  induction n with
  | zero => intro s t ht; simp [run] at ht
  | succ k ih =>
    intro s t ht
    simp only [List.replicate_succ, run, List.mem_cons] at ht
    rcases ht with rfl | ht
    · rfl
    · exact ih _ t ht

theorem ticksLeft_armed (s : LoopState) : ticksLeft (drive (arm s true)).state = 417 := by
  obtain ⟨h1, h2, h3, _⟩ := drive_armed s
  unfold ticksLeft
  rw [h1, h2, h3]
  decide

set_option maxRecDepth 1000000 in
/-- C15, as stated, fails: the fifth arrival starts a ring (`chime_repeat` is
2 at the end of 208 ticks, 1 at the end of the next 209 and 0 after the
418th); when the ring has run to its end the chime counters are
`chime_repeat = 0`, `chime_on_count = 60`, `chime_off_count = 0`, not
all-zero as at power-on. -/
theorem ring_end_state_counterexample :
    (run 0xB65902 powerOn
        ([some ⟨0xB65902, 100⟩, some ⟨0xB65902, 200⟩, some ⟨0xB65902, 300⟩,
          some ⟨0xB65902, 400⟩, some ⟨0xB65902, 500⟩] ++ List.replicate 417 none)).map
        (fun t => t.state.chime_repeat) =
      List.replicate 4 0 ++ List.replicate 208 2 ++ List.replicate 209 1 ++ [0] ∧
    (runState 0xB65902 powerOn
        ([some ⟨0xB65902, 100⟩, some ⟨0xB65902, 200⟩, some ⟨0xB65902, 300⟩,
          some ⟨0xB65902, 400⟩, some ⟨0xB65902, 500⟩] ++ List.replicate 417 none)).chime_repeat
      = 0 ∧
    (runState 0xB65902 powerOn
        ([some ⟨0xB65902, 100⟩, some ⟨0xB65902, 200⟩, some ⟨0xB65902, 300⟩,
          some ⟨0xB65902, 400⟩, some ⟨0xB65902, 500⟩] ++ List.replicate 417 none)).chime_on_count
      = 60 ∧
    (runState 0xB65902 powerOn
        ([some ⟨0xB65902, 100⟩, some ⟨0xB65902, 200⟩, some ⟨0xB65902, 300⟩,
          some ⟨0xB65902, 400⟩, some ⟨0xB65902, 500⟩] ++ List.replicate 417 none)).chime_off_count
      = 0 ∧
    powerOn.chime_on_count = 0 := by
  decide

/-- C15, amended: after a tick that raises the trigger, from any state, and
at least 417 further ticks none of which raises a trigger, the chime counters
are `chime_repeat = 0`, `chime_off_count = 0` and `chime_on_count = 60`: the
last OFF tick reloads `chime_on_count` (line 198) before it decrements
`chime_repeat`. -/
theorem ring_ends_with_on_count_reloaded (E : Nat) (s : LoopState) (inp : Option Signal)
    (more : List (Option Signal))
    (htrig : (loop E s inp).chime_trigger = true) (hlen : 417 ≤ more.length)
    (hq : ∀ t ∈ run E (loop E s inp).state more, t.chime_trigger = false) :
    (runState E (loop E s inp).state more).chime_repeat = 0 ∧
    (runState E (loop E s inp).state more).chime_on_count = 60 ∧
    (runState E (loop E s inp).state more).chime_off_count = 0 := by
  rw [loop_trigger] at htrig
  have hst : (loop E s inp).state = (drive (arm (receive E s inp).1 true)).state := by
    simp only [loop, htrig]
  have hinv : TickInv (loop E s inp).state := by
    rw [hst]
    exact TickInv_armed _
  have hleft : ticksLeft (loop E s inp).state = 417 := by
    rw [hst]
    exact ticksLeft_armed _
  have hrep : (loop E s inp).state.chime_repeat = 2 := by
    rw [hst]
    exact (drive_armed _).1
  have hend := run_down E more _ hinv hq (by rw [hleft]; exact_mod_cast hlen)
  have hinv2 := TickInv_runState E more _ hinv
  have h0 := (ticksLeft_bounds _ hinv2.1).2.2.1 hend
  have hon := run_on_count E more _ hinv (fun hc => by omega) hq h0
  refine ⟨h0, hon, ?_⟩
  have hs := hinv2.1
  unfold chimeShape at hs
  omega

theorem ring_ends_with_on_count_reloaded_witness :
    (runState 0xB65902
        (loop 0xB65902 { powerOn with cnt := 4, prev_time := 400 } (some ⟨0xB65902, 500⟩)).state
        (List.replicate 417 none)).chime_repeat = 0 ∧
    (runState 0xB65902
        (loop 0xB65902 { powerOn with cnt := 4, prev_time := 400 } (some ⟨0xB65902, 500⟩)).state
        (List.replicate 417 none)).chime_on_count = 60 ∧
    (runState 0xB65902
        (loop 0xB65902 { powerOn with cnt := 4, prev_time := 400 } (some ⟨0xB65902, 500⟩)).state
        (List.replicate 417 none)).chime_off_count = 0 :=
  ring_ends_with_on_count_reloaded 0xB65902 { powerOn with cnt := 4, prev_time := 400 }
    (some ⟨0xB65902, 500⟩) (List.replicate 417 none) (by decide)
    (le_of_eq (List.length_replicate 417 none).symm)
    (idle_ticks_quiet 0xB65902 417 _)

/-- C17: in every state reached at the end of a tick from power-on, under any
sequence of signals, `0 ≤ chime_repeat ≤ 2`, `0 ≤ chime_on_count ≤ 60` and
`0 ≤ chime_off_count ≤ 150`; and from every such state, if none of the next
418 ticks raises a trigger, then at the end of those ticks `chime_repeat = 0`
and the relay pin is OFF. -/
theorem every_ring_ends (E : Nat) (inps more : List (Option Signal))
    (hlen : more.length = 418)
    (hq : ∀ t ∈ run E (runState E powerOn inps) more, t.chime_trigger = false) :
    (0 ≤ (runState E powerOn inps).chime_repeat ∧ (runState E powerOn inps).chime_repeat ≤ 2 ∧
      0 ≤ (runState E powerOn inps).chime_on_count ∧
      (runState E powerOn inps).chime_on_count ≤ 60 ∧
      0 ≤ (runState E powerOn inps).chime_off_count ∧
      (runState E powerOn inps).chime_off_count ≤ 150) ∧
    (runState E (runState E powerOn inps) more).chime_repeat = 0 ∧
    (runState E (runState E powerOn inps) more).pin_relay = RELAY_OFF := by
  have hinv := TickInv_runState E inps powerOn TickInv_powerOn
  have hb := ticksLeft_bounds _ hinv.1
  have hend := run_down E more _ hinv hq (by rw [hlen]; exact_mod_cast hb.2.1)
  have hinv2 := TickInv_runState E more _ hinv
  have h0 := (ticksLeft_bounds _ hinv2.1).2.2.1 hend
  refine ⟨?_, h0, level_off_of_ne_on _ (fun hon => (hinv2.2.1 hon).1 h0)⟩
  have hs := hinv.1
  unfold chimeShape at hs
  omega

theorem every_ring_ends_witness :
    (runState 0xB65902
        (runState 0xB65902 powerOn
          [some ⟨0xB65902, 100⟩, some ⟨0xB65902, 200⟩, some ⟨0xB65902, 300⟩,
           some ⟨0xB65902, 400⟩, some ⟨0xB65902, 500⟩])
        (List.replicate 418 none)).chime_repeat = 0 ∧
    (runState 0xB65902
        (runState 0xB65902 powerOn
          [some ⟨0xB65902, 100⟩, some ⟨0xB65902, 200⟩, some ⟨0xB65902, 300⟩,
           some ⟨0xB65902, 400⟩, some ⟨0xB65902, 500⟩])
        (List.replicate 418 none)).pin_relay = RELAY_OFF :=
  (every_ring_ends 0xB65902
    [some ⟨0xB65902, 100⟩, some ⟨0xB65902, 200⟩, some ⟨0xB65902, 300⟩,
     some ⟨0xB65902, 400⟩, some ⟨0xB65902, 500⟩]
    (List.replicate 418 none) (List.length_replicate 418 none)
    (idle_ticks_quiet 0xB65902 418 _)).2


/-! ## The trigger is one-shot (C13) -/

theorem triggerCount_cons (t : Tick) (ts : List Tick) :
    triggerCount (t :: ts) = (if t.chime_trigger = true then 1 else 0) + triggerCount ts := by
  unfold triggerCount
  by_cases h : t.chime_trigger = true
  · simp [List.filter_cons, h]
    omega
  · simp [List.filter_cons, h]

theorem trigger_means_five (E : Nat) (inps : List (Option Signal)) :
    ∀ s : LoopState, ∀ t ∈ run E s inps, t.chime_trigger = true → t.state.cnt = nrOfvalidCodes := by
  induction inps with
  | nil => intro s t ht; simp [run] at ht
  | cons inp rest ih =>
    intro s t ht htrig
    simp only [run, List.mem_cons] at ht
    rcases ht with rfl | ht
    · rw [loop_trigger] at htrig
      obtain ⟨_, _, _, h5⟩ := (receive_trigger_iff E s inp).1 htrig
      rw [loop_cnt]
      exact h5
    · exact ih _ t ht htrig

theorem incr32_eq (c : Int) (h : c ≠ 2147483647) : incr32 c = c + 1 := by
  unfold incr32
  rw [if_neg h]

theorem run_within_window (E : Nat) (inps : List (Option Signal)) :
    ∀ (s : LoopState) (prev : Nat), s.prev_time = prev % ULONG_MOD →
      withinWindow prev inps = true →
      s.cnt + (arrivalsOf E inps).length ≤ 2147483647 →
      (triggerCount (run E s inps) : Int) ≤ (if s.cnt < 5 then 1 else 0) := by
  induction inps with
  | nil =>
    intro s prev _ _ _
    simp only [run, triggerCount, List.filter_nil, List.length_nil, Nat.cast_zero]
    split_ifs <;> omega
  | cons inp rest ih =>
    intro s prev hp hw hl
    rw [arrivalsOf_cons] at hl
    push_cast at hl
    simp only [run, triggerCount_cons]
    push_cast
    cases inp with
    | none =>
      have hq : (loop E s none).chime_trigger = false := rfl
      have hc : (loop E s none).state.cnt = s.cnt := by rw [loop_cnt, receive_none]
      have hpt : (loop E s none).state.prev_time = prev % ULONG_MOD := by
        rw [loop_prev_time, receive_none]
        exact hp
      have hrest := ih (loop E s none).state prev hpt (by simpa [withinWindow] using hw)
        (by rw [hc]; omega)
      rw [hc] at hrest
      simp only [hq, Bool.false_eq_true, if_false]
      omega
    | some sig =>
      simp only [withinWindow, Bool.and_eq_true, decide_eq_true_eq] at hw
      have hpt : (loop E s (some sig)).state.prev_time = sig.millis % ULONG_MOD := by
        rw [loop_prev_time, receive_prev_time]
      by_cases hv : sig.value = E
      · have hlen : (arrivalsOf E [some sig]).length = 1 := by simp [arrivalsOf, hv]
        rw [hlen] at hl
        have hgap : ¬usub32 (sig.millis % ULONG_MOD) s.prev_time > 1000 := by
          rw [hp, usub32_mod]
          omega
        have hc : (loop E s (some sig)).state.cnt = s.cnt + 1 := by
          rw [loop_cnt, receive_match_cnt E s sig hv, if_neg hgap, incr32_eq _ (by omega)]
        have htr : (loop E s (some sig)).chime_trigger = decide (s.cnt + 1 = nrOfvalidCodes) := by
          rw [loop_trigger, receive_match_trigger E s sig hv, ← loop_cnt, hc]
        have hrest := ih (loop E s (some sig)).state sig.millis hpt hw.2 (by rw [hc]; omega)
        rw [hc] at hrest
        rw [htr]
        simp only [nrOfvalidCodes, decide_eq_true_eq]
        split_ifs at hrest ⊢ <;> omega
      · have hq : (loop E s (some sig)).chime_trigger = false := by
          rw [loop_trigger, receive_other E s sig hv]
        have hc : (loop E s (some sig)).state.cnt = s.cnt := by
          rw [loop_cnt, receive_other E s sig hv]
        have hlen : (arrivalsOf E [some sig]).length = 0 := by simp [arrivalsOf, hv]
        rw [hlen] at hl
        have hrest := ih (loop E s (some sig)).state sig.millis hpt hw.2 (by rw [hc]; omega)
        rw [hc] at hrest
        simp only [hq, Bool.false_eq_true, if_false]
        omega

theorem run_unbroken (E : Nat) (inps : List (Option Signal)) :
    ∀ s : LoopState, s.cnt = 0 → unbrokenRun inps = true →
      (arrivalsOf E inps).length ≤ 2147483647 → triggerCount (run E s inps) ≤ 1 := by
  induction inps with
  | nil => intro s _ _ _; simp [run, triggerCount]
  | cons inp rest ih =>
    intro s h0 hu hl
    rw [arrivalsOf_cons] at hl
    simp only [run, triggerCount_cons]
    cases inp with
    | none =>
      have hq : (loop E s none).chime_trigger = false := rfl
      have hc : (loop E s none).state.cnt = 0 := by rw [loop_cnt, receive_none]; exact h0
      have hrest := ih (loop E s none).state hc (by simpa [unbrokenRun] using hu) (by omega)
      simp only [hq, Bool.false_eq_true, if_false]
      omega
    | some sig =>
      simp only [unbrokenRun] at hu
      have hpt : (loop E s (some sig)).state.prev_time = sig.millis % ULONG_MOD := by
        rw [loop_prev_time, receive_prev_time]
      by_cases hv : sig.value = E
      · have hlen : (arrivalsOf E [some sig]).length = 1 := by simp [arrivalsOf, hv]
        rw [hlen] at hl
        have hc : (loop E s (some sig)).state.cnt = 0 ∨ (loop E s (some sig)).state.cnt = 1 := by
          rw [loop_cnt, receive_match_cnt E s sig hv, h0]
          split_ifs
          · exact Or.inl rfl
          · exact Or.inr rfl
        have hq : (loop E s (some sig)).chime_trigger = false := by
          rw [loop_trigger, receive_match_trigger E s sig hv, ← loop_cnt]
          rcases hc with hc | hc <;> rw [hc] <;> rfl
        have hrest := run_within_window E rest (loop E s (some sig)).state sig.millis hpt hu
          (by rcases hc with hc | hc <;> rw [hc] <;> omega)
        simp only [hq, Bool.false_eq_true, if_false]
        split_ifs at hrest <;> omega
      · have hq : (loop E s (some sig)).chime_trigger = false := by
          rw [loop_trigger, receive_other E s sig hv]
        have hc : (loop E s (some sig)).state.cnt = 0 := by
          rw [loop_cnt, receive_other E s sig hv]
          exact h0
        have hlen : (arrivalsOf E [some sig]).length = 0 := by simp [arrivalsOf, hv]
        rw [hlen] at hl
        have hrest := run_within_window E rest (loop E s (some sig)).state sig.millis hpt hu
          (by rw [hc]; omega)
        simp only [hq, Bool.false_eq_true, if_false]
        split_ifs at hrest <;> omega

/-- C13, amended: in every unbroken run (every signal at most 1000 ms after
the signal before it, empty ticks and other codes allowed in between) that
starts from count 0 and holds fewer than 2^31 arrivals of the expected code,
so that `cnt++` stays inside the range of `int`, at most one tick raises
`chime_trigger`, and a tick that raises it ends with `cnt = 5`: the count is
not reset by the trigger, and the later arrivals of the run count on from 5
without a second trigger. -/
theorem trigger_is_one_shot (E : Nat) (s : LoopState) (inps : List (Option Signal))
    (h0 : s.cnt = 0) (hrun : unbrokenRun inps = true)
    (hlen : (arrivalsOf E inps).length < 2 ^ 31) :
    triggerCount (run E s inps) ≤ 1 ∧
    ∀ t ∈ run E s inps, t.chime_trigger = true → t.state.cnt = 5 := by
  refine ⟨run_unbroken E inps s h0 hrun (by omega), ?_⟩
  intro t ht htrig
  exact trigger_means_five E inps s t ht htrig

theorem trigger_is_one_shot_witness :
    triggerCount (run 0xB65902 powerOn
        [some ⟨0xB65902, 5000⟩, some ⟨0xB65902, 5100⟩, none, some ⟨0xB65902, 5200⟩,
         some ⟨0xB65902, 5300⟩, some ⟨0xB65902, 5400⟩, some ⟨0xB65902, 5500⟩,
         some ⟨0xB65902, 5600⟩, some ⟨0xB65902, 5700⟩]) ≤ 1 ∧
    triggerCount (run 0xB65902 powerOn
        [some ⟨0xB65902, 5000⟩, some ⟨0xB65902, 5100⟩, none, some ⟨0xB65902, 5200⟩,
         some ⟨0xB65902, 5300⟩, some ⟨0xB65902, 5400⟩, some ⟨0xB65902, 5500⟩,
         some ⟨0xB65902, 5600⟩, some ⟨0xB65902, 5700⟩]) = 1 :=
  ⟨(trigger_is_one_shot 0xB65902 powerOn
      [some ⟨0xB65902, 5000⟩, some ⟨0xB65902, 5100⟩, none, some ⟨0xB65902, 5200⟩,
       some ⟨0xB65902, 5300⟩, some ⟨0xB65902, 5400⟩, some ⟨0xB65902, 5500⟩,
       some ⟨0xB65902, 5600⟩, some ⟨0xB65902, 5700⟩] rfl (by decide) (by decide)).1,
    by decide⟩

/-! ## A run long enough for `cnt` to wrap (C13) -/

theorem run_append (E : Nat) (l1 l2 : List (Option Signal)) :
    ∀ s : LoopState, run E s (l1 ++ l2) = run E s l1 ++ run E (runState E s l1) l2 := by
  induction l1 with
  | nil => intro s; rfl
  | cons inp rest ih =>
    intro s
    rw [List.cons_append]
    simp only [run, runState, List.cons_append]
    rw [ih]

theorem triggerCount_append (a b : List Tick) :
    triggerCount (a ++ b) = triggerCount a + triggerCount b := by
  simp [triggerCount, List.filter_append]

theorem steadyArrivals_append (E step : Nat) (a b : Nat) :
    ∀ t : Nat, steadyArrivals E step t (a + b) =
      steadyArrivals E step t a ++ steadyArrivals E step (t + a * step) b := by
  induction a with
  | zero =>
    intro t
    simp [steadyArrivals]
  | succ k ih =>
    intro t
    have h1 : k + 1 + b = (k + b) + 1 := by omega
    have h2 : t + step + k * step = t + (k + 1) * step := by
      rw [Nat.add_mul, Nat.one_mul]
      omega
    rw [h1]
    simp only [steadyArrivals, List.cons_append, ih, h2]

theorem withinWindow_steady (E step : Nat) (hs : step ≤ 1000) (n : Nat) :
    ∀ t : Nat, withinWindow t (steadyArrivals E step t n) = true := by
  induction n with
  | zero => intro t; rfl
  | succ k ih =>
    intro t
    have hu : usub32 (t + step) t = step := by
      rw [← usub32_mod]
      exact usub32_wrap t step (by unfold ULONG_MOD; omega)
    simp only [steadyArrivals, withinWindow, hu, ih, Bool.and_true, decide_eq_true_eq]
    exact hs

theorem unbrokenRun_steady (E step : Nat) (hs : step ≤ 1000) (n t : Nat) :
    unbrokenRun (steadyArrivals E step t n) = true := by
  cases n with
  | zero => rfl
  | succ k =>
    simp only [steadyArrivals, unbrokenRun]
    exact withinWindow_steady E step hs k (t + step)

theorem steady_step (E step : Nat) (hs : step ≤ 1000) (s : LoopState) (t : Nat)
    (hp : s.prev_time = t % ULONG_MOD) :
    (loop E s (some ⟨E, t + step⟩)).state.cnt = incr32 s.cnt ∧
    (loop E s (some ⟨E, t + step⟩)).state.prev_time = (t + step) % ULONG_MOD ∧
    (loop E s (some ⟨E, t + step⟩)).chime_trigger = decide (incr32 s.cnt = nrOfvalidCodes) := by
  have hu : ¬usub32 ((t + step) % ULONG_MOD) s.prev_time > 1000 := by
    rw [hp, usub32_wrap t step (by unfold ULONG_MOD; omega)]
    omega
  have hc : (receive E s (some ⟨E, t + step⟩)).1.cnt = incr32 s.cnt := by
    rw [receive_match_cnt E s ⟨E, t + step⟩ rfl, if_neg hu]
  refine ⟨?_, ?_, ?_⟩
  · rw [loop_cnt, hc]
  · rw [loop_prev_time, receive_prev_time]
  · rw [loop_trigger, receive_match_trigger E s ⟨E, t + step⟩ rfl, hc]

theorem steady_climb (E step : Nat) (hs : step ≤ 1000) (n : Nat) :
    ∀ (s : LoopState) (t : Nat), s.prev_time = t % ULONG_MOD →
      s.cnt + (n : Int) ≤ 2147483647 →
      (runState E s (steadyArrivals E step t n)).cnt = s.cnt + (n : Int) ∧
      (runState E s (steadyArrivals E step t n)).prev_time = (t + n * step) % ULONG_MOD ∧
      (s.cnt < 5 → 5 ≤ s.cnt + (n : Int) →
        1 ≤ triggerCount (run E s (steadyArrivals E step t n))) := by
  induction n with
  | zero =>
    intro s t hp _
    refine ⟨by simp [steadyArrivals, runState], by simpa [steadyArrivals, runState] using hp, ?_⟩
    intro h1 h2
    simp only [Nat.cast_zero, add_zero] at h2
    omega
  | succ k ih =>
    intro s t hp hb
    push_cast at hb
    obtain ⟨hc, hpt, htr⟩ := steady_step E step hs s t hp
    rw [incr32_eq s.cnt (by omega)] at hc htr
    obtain ⟨ic, ipt, itr⟩ := ih (loop E s (some ⟨E, t + step⟩)).state (t + step) hpt
      (by rw [hc]; omega)
    have h2 : t + step + k * step = t + (k + 1) * step := by
      rw [Nat.add_mul, Nat.one_mul]
      omega
    simp only [steadyArrivals, runState, run, triggerCount_cons]
    refine ⟨?_, ?_, ?_⟩
    · rw [ic, hc]
      push_cast
      omega
    · rw [ipt, h2]
    · intro h5 hreach
      push_cast at hreach
      by_cases hnow : s.cnt + 1 = 5
      · rw [htr]
        simp [nrOfvalidCodes, hnow]
      · have := itr (by rw [hc]; omega) (by rw [hc]; omega)
        omega

theorem steady_two_triggers (E step n1 n3 : Nat) (hs : step ≤ 1000) (s : LoopState)
    (hp : s.prev_time = 0 % ULONG_MOD) (hc : s.cnt = 0)
    (h1 : (n1 : Int) = 2147483647) (h3 : (n3 : Int) = 2147483653) :
    2 ≤ triggerCount (run E s (steadyArrivals E step 0 (n1 + (1 + n3)))) := by
  rw [steadyArrivals_append, run_append, triggerCount_append, steadyArrivals_append, run_append,
    triggerCount_append]
  obtain ⟨c1, p1, t1⟩ := steady_climb E step hs n1 s 0 hp (by omega)
  have ht1 := t1 (by omega) (by omega)
  obtain ⟨c2, p2, _⟩ := steady_step E step hs (runState E s (steadyArrivals E step 0 n1))
    (0 + n1 * step) p1
  have hwrap : incr32 (runState E s (steadyArrivals E step 0 n1)).cnt = -2147483648 := by
    unfold incr32
    rw [if_pos (by omega)]
  rw [hwrap] at c2
  have hone : steadyArrivals E step (0 + n1 * step) 1 = [some ⟨E, 0 + n1 * step + step⟩] := rfl
  rw [hone]
  have hs2 : runState E (runState E s (steadyArrivals E step 0 n1))
      [some ⟨E, 0 + n1 * step + step⟩] =
      (loop E (runState E s (steadyArrivals E step 0 n1))
        (some ⟨E, 0 + n1 * step + step⟩)).state := rfl
  rw [hs2, Nat.one_mul]
  obtain ⟨_, _, t3⟩ := steady_climb E step hs n3 _ (0 + n1 * step + step) p2 (by omega)
  have ht3 := t3 (by omega) (by omega)
  omega

/-- C13, as stated, fails for runs of unlimited length: from power-on (count
0), `2^32 + 5` arrivals of the expected code, one every 10 ms, form an
unbroken run, and `chime_trigger` is raised on more than one of them: `cnt`
reaches 5 on the fifth arrival, wraps from `INT_MAX` to `INT_MIN` on arrival
`2^31`, and reaches 5 again on the last arrival. -/
theorem one_shot_unbounded_counterexample :
    powerOn.cnt = 0 ∧
    unbrokenRun (steadyArrivals 0xB65902 10 0 (2147483647 + (1 + 2147483653))) = true ∧
    2147483647 + (1 + 2147483653) = 2 ^ 32 + 5 ∧
    2 ≤ triggerCount
      (run 0xB65902 powerOn (steadyArrivals 0xB65902 10 0 (2147483647 + (1 + 2147483653)))) :=
  ⟨rfl, unbrokenRun_steady 0xB65902 10 (by omega) (2147483647 + (1 + 2147483653)) 0,
    by norm_num,
    steady_two_triggers 0xB65902 10 2147483647 2147483653 (by omega) powerOn rfl rfl
      (by norm_num) (by norm_num)⟩

end ReolinkChime
